import Mathlib

/-!
Verification of the dot-organize manifest validation core.

Shallow embedding of the validation and derivation engine under
`src/dot/`: the data model (`models/`), the regex-based naming
predicates (`core/normalization.py`), the expression validator
(`core/expression.py`), the registry deriver (`core/registry.py`),
the rule set (`core/rules.py`) and the orchestrator
(`core/validation.py`).

Modelling notes (choices that fix the semantics of library calls):
* Python strings are `String`; operations are carried out on `List Char`
  (code points), matching CPython comparison and slicing behaviour.
* Regular-expression character classes in the source are ASCII
  (`[a-z]`, `[A-Z0-9_]`, `\d` and so on); they are embedded as ASCII
  tests on code points. Python `re` `\d`, `\w`, `\s` also match some
  non-ASCII code points; the embedding fixes the ASCII reading, which
  agrees with the source on every ASCII string.
* Python `$` (without `re.MULTILINE`) matches at the end of the string
  or just before one final newline.  Every character class in the
  embedded patterns excludes the newline, so a full anchored match is:
  drop at most one trailing newline, then match exactly to the end.
  `dropFinalNl` performs that step.
* Python sets of strings become `Finset String`; `list.sort(key=...)`
  is a stable sort by the key order, embedded as `List.insertionSort`
  (stable sorts by a total preorder compute the same function).
-/

namespace Dot

/-- Severity of a diagnostic (`models/diagnostic.py`). -/
inductive Severity where
  | ERROR : Severity
  | WARN : Severity
deriving DecidableEq

/-- Validation diagnostic (`models/diagnostic.py`). -/
structure Diagnostic where
  rule_id : String
  severity : Severity
  message : String
  path : String
  fix : String
deriving DecidableEq

/-- Role of a hook within a frame (`models/frame.py`). -/
inductive HookRole where
  | PRIMARY : HookRole
  | FOREIGN : HookRole
deriving DecidableEq

/-- Hook definition (`models/frame.py`).  `role` is always a `HookRole`
in the typed model (pydantic rejects anything else), so the defensive
`is None` / `isinstance` checks of HOOK-001 and HOOK-003 on `role` are
vacuous here. -/
structure Hook where
  name : String
  role : HookRole
  concept : String
  qualifier : Option String
  source : String
  tenant : Option String
  expr : String
deriving DecidableEq

/-- Frame source (`models/frame.py`).  The pydantic model also carries a
construction invariant (exactly one of `relation`/`path` set), embedded
separately as `Source.exclusive` since the rules re-check it. -/
structure Source where
  relation : Option String
  path : Option String
deriving DecidableEq

/-- The `model_validator` of `Source` (`models/frame.py`,
`validate_exclusivity`): construction succeeds iff exactly one of
`relation`/`path` is non-null. -/
def Source.exclusive (s : Source) : Prop :=
  (s.relation.isSome = true ∧ s.path = none) ∨
    (s.relation = none ∧ s.path.isSome = true)

/-- Frame (`models/frame.py`).  `source` is declared non-optional in the
pydantic model, but the rules of `core/rules.py` defensively check
`frame.source is None`, so the embedding keeps the optional shape and
states the typed-model invariant as a hypothesis where needed.
The `description` field is not read by any rule and is omitted. -/
structure Frame where
  name : String
  source : Option Source
  hooks : List Hook
deriving DecidableEq

/-- Business concept (`models/concept.py`). -/
structure Concept where
  name : String
  frames : List String
  description : String
  examples : List String
  is_weak : Bool
deriving DecidableEq

/-- Manifest settings (`models/settings.py`); defaults are
`hook_prefix="_hk__"`, `weak_hook_prefix="_wk__"`, `delimiter="|"`.
The field names are shortened to `hookPfx`/`weakHookPfx`. -/
structure Settings where
  hookPfx : String
  weakHookPfx : String
  delimiter : String
deriving DecidableEq

/-- Root manifest (`models/manifest.py`).  `metadata` is not read by any
validation rule and is omitted from the embedding. -/
structure Manifest where
  manifest_version : String
  schema_version : String
  settings : Settings
  frames : List Frame
  concepts : List Concept
deriving DecidableEq

/-! ## Character and string helpers (ASCII readings of the regex classes) -/

/-- The class `[a-z]`. -/
def isLowerAZ (c : Char) : Bool := 'a' ≤ c && c ≤ 'z'

/-- The class `[A-Z]`. -/
def isUpperAZ (c : Char) : Bool := 'A' ≤ c && c ≤ 'Z'

/-- The class `\d` (ASCII reading). -/
def isDigit09 (c : Char) : Bool := '0' ≤ c && c ≤ '9'

/-- The class `[a-z0-9_]`. -/
def isLowSnakeChar (c : Char) : Bool := isLowerAZ c || isDigit09 c || c == '_'

/-- The class `[A-Z0-9_]`. -/
def isUpSnakeChar (c : Char) : Bool := isUpperAZ c || isDigit09 c || c == '_'

/-- The class `[a-z0-9]`. -/
def isLowAl (c : Char) : Bool := isLowerAZ c || isDigit09 c

/-- The class `\w` (ASCII reading), deciding the `\b` word boundaries. -/
def isWordChar (c : Char) : Bool :=
  isLowerAZ c || isUpperAZ c || isDigit09 c || c == '_'

/-- ASCII whitespace as Python `str.strip` and `\s` treat it. -/
def isPyWs (c : Char) : Bool :=
  c == ' ' || c == '\t' || c == '\n' || c == '\r' || c == '\x0b' || c == '\x0c'

/-- Python `$` (no MULTILINE): drop at most one final newline before an
exact end-anchored match.  See the modelling notes. -/
def dropFinalNl (l : List Char) : List Char :=
  if l.getLast? = some '\n' then l.dropLast else l

/-- Case-insensitive character comparison (`re.IGNORECASE`, ASCII). -/
def charCI (a b : Char) : Bool := a.toLower == b.toLower

/-- Python `str.upper` (ASCII reading). -/
def strUpper (s : String) : String := String.mk (s.toList.map Char.toUpper)

/-- `listIsPfx p l`: `p` is a prefix of `l`. -/
def listIsPfx : List Char → List Char → Bool
  | [], _ => true
  | _ :: _, [] => false
  | a :: as, b :: bs => a == b && listIsPfx as bs

/-- Python `str.startswith`. -/
def strHasPfx (s p : String) : Bool := listIsPfx p.toList s.toList

/-- Python truthiness of an optional string: non-null and non-empty. -/
def optTruthy : Option String → Bool
  | none => false
  | some s => !s.isEmpty

/-- Lexicographic strict order on code-point lists: Python `<` on `str`. -/
def clLt : List Char → List Char → Bool
  | [], [] => false
  | [], _ :: _ => true
  | _ :: _, [] => false
  | a :: as, b :: bs =>
    if a.toNat < b.toNat then true
    else if b.toNat < a.toNat then false
    else clLt as bs

/-- Python `<` on strings. -/
def strLt (a b : String) : Bool := clLt a.toList b.toList

/-- Python `<=` on strings (total order: not strictly greater). -/
def strLe (a b : String) : Bool := !strLt b a

/-! ## Normalization (`core/normalization.py`) -/

/-- `is_lower_snake_case`: the guarded match of `^[a-z][a-z0-9_]*$`. -/
def is_lower_snake_case (s : String) : Bool :=
  match dropFinalNl s.toList with
  | [] => false
  | c :: rest => isLowerAZ c && rest.all isLowSnakeChar

/-- `is_upper_snake_case`: the guarded match of `^[A-Z][A-Z0-9_]*$`. -/
def is_upper_snake_case (s : String) : Bool :=
  match dropFinalNl s.toList with
  | [] => false
  | c :: rest => isUpperAZ c && rest.all isUpSnakeChar

/-- The sub-pattern `[a-z][a-z0-9]*(_[a-z0-9]+)*` of `HOOK_NAME`, after
its first character: a run of `[a-z0-9]` and `_` in which every `_` is
immediately followed by an `[a-z0-9]` (so no `__` and no final `_`).
This is exactly the language of `[a-z0-9]*(_[a-z0-9]+)*`. -/
def coreAux : List Char → Bool
  | [] => true
  | c :: rest =>
    if c = '_' then
      match rest with
      | [] => false
      | d :: rest2 => isLowAl d && coreAux rest2
    else isLowAl c && coreAux rest

/-- A full match of the segment pattern `[a-z][a-z0-9]*(_[a-z0-9]+)*`. -/
def matchSeg : List Char → Bool
  | [] => false
  | c :: rest => isLowerAZ c && coreAux rest

/-- Split at the first occurrence of `__`: `some (a, b)` with
`l = a ++ '_' :: '_' :: b` and no `__` inside `a`. -/
def splitFirst2us : List Char → Option (List Char × List Char)
  | [] => none
  | c :: rest =>
    if c = '_' ∧ rest.head? = some '_' then some ([], rest.tail)
    else
      match splitFirst2us rest with
      | none => none
      | some (a, b) => some (c :: a, b)

/-- The body `<seg>(__<seg>)?` of `HOOK_NAME`.  A segment never contains
`__`, so a successful parse splits at the first `__` when one occurs
(`splitFirst2us_complete` below justifies completeness of this
deterministic choice against the regex language). -/
def matchHookBody (l : List Char) : Bool :=
  match splitFirst2us l with
  | none => matchSeg l
  | some (a, b) => matchSeg a && matchSeg b

/-- The prefix test `_(hk|wk)__` followed by the body. -/
def hookNameTail (l : List Char) : Bool :=
  match l with
  | '_' :: p1 :: p2 :: '_' :: '_' :: rest =>
    ((p1 == 'h' || p1 == 'w') && p2 == 'k') && matchHookBody rest
  | _ => false

/-- `is_valid_hook_name`: the guarded match of
`^_(hk|wk)__[a-z][a-z0-9]*(_[a-z0-9]+)*(__[a-z][a-z0-9]*(_[a-z0-9]+)*)?$`
(the `not s` guard of the source is subsumed: the empty string already
fails the prefix). -/
def is_valid_hook_name (s : String) : Bool := hookNameTail (dropFinalNl s.toList)

/-- `is_valid_frame_name`: the guarded match of
`^[a-z][a-z0-9_]*\.[a-z][a-z0-9_]*$` (the classes exclude `.`, so the
greedy stars are maximal-munch). -/
def is_valid_frame_name (s : String) : Bool :=
  match dropFinalNl s.toList with
  | [] => false
  | c :: rest =>
    isLowerAZ c &&
      (match rest.dropWhile isLowSnakeChar with
       | '.' :: c2 :: rest2 => isLowerAZ c2 && rest2.all isLowSnakeChar
       | _ => false)

/-- At least one leading `\d`. -/
def hasDigit1 : List Char → Bool
  | [] => false
  | c :: _ => isDigit09 c

/-- Consume a maximal run of `\d` (the class excludes `.`). -/
def dropDigits (l : List Char) : List Char := l.dropWhile isDigit09

/-- The pattern `\d+\.\d+\.\d+` of `SEMVER`, matched to the end of the
list (the classes exclude `.`, so the greedy `\d+` are
maximal-munch). -/
def semverTail (l : List Char) : Bool :=
  hasDigit1 l &&
    (match dropDigits l with
     | '.' :: r1 =>
       hasDigit1 r1 &&
         (match dropDigits r1 with
          | '.' :: r2 => hasDigit1 r2 && (dropDigits r2).isEmpty
          | _ => false)
     | _ => false)

/-- `is_valid_semver`: the guarded match of `^\d+\.\d+\.\d+$` (the
`not s` guard of the source is subsumed: the empty string already
fails `\d+`). -/
def is_valid_semver (s : String) : Bool := semverTail (dropFinalNl s.toList)

/-! ## Expression validator (`core/expression.py`) -/

/-- A forbidden pattern: `\b<kw>\b` or `\b<kw1>\s+<kw2>\b`
(for `GROUP BY` / `ORDER BY`), all compiled with `re.IGNORECASE`. -/
inductive Pat where
  | word : String → Pat
  | words2 : String → String → Pat
deriving DecidableEq

/-- Consume `kw` case-insensitively from the front of `l`. -/
def chopCI : List Char → List Char → Option (List Char)
  | [], l => some l
  | _ :: _, [] => none
  | k :: ks, c :: cs => if charCI k c then chopCI ks cs else none

/-- Consume `\s+` (greedy; complete here because the following literal
starts with a non-whitespace letter). -/
def chopWs1 : List Char → Option (List Char)
  | [] => none
  | c :: cs => if isPyWs c then some (cs.dropWhile isPyWs) else none

/-- Try the pattern literally at the current position, returning the
remainder of the string after the matched text. -/
def patAt : Pat → List Char → Option (List Char)
  | Pat.word kw, l => chopCI kw.toList l
  | Pat.words2 k1 k2, l =>
    match chopCI k1.toList l with
    | none => none
    | some r1 =>
      match chopWs1 r1 with
      | none => none
      | some r2 => chopCI k2.toList r2

/-- The trailing `\b`: the next character, if any, is not a word char. -/
def bdryAfter : List Char → Bool
  | [] => true
  | c :: _ => !isWordChar c

/-- `re.search` of `\b<pat>\b`: some start position has a word boundary
before it (`prevW` says whether the previous character was a word
character; every pattern starts with a letter, so `\b` there means the
previous position is the edge or a non-word character), the literal
pattern matches, and a word boundary follows. -/
def searchPat (p : Pat) : List Char → Bool → Bool
  | [], _ => false
  | c :: cs, prevW =>
    (!prevW &&
      (match patAt p (c :: cs) with
       | some rest => bdryAfter rest
       | none => false))
    || searchPat p cs (isWordChar c)

/-- `pattern.search(expr)` is truthy. -/
def patFound (p : Pat) (expr : String) : Bool := searchPat p expr.toList false

/-- `FORBIDDEN_PATTERNS`: the fixed (pattern, name) list, in source
order. -/
def FORBIDDEN_PATTERNS : List (Pat × String) :=
  [(Pat.word "SELECT", "SELECT"),
   (Pat.word "FROM", "FROM"),
   (Pat.word "JOIN", "JOIN"),
   (Pat.word "WHERE", "WHERE"),
   (Pat.words2 "GROUP" "BY", "GROUP BY"),
   (Pat.words2 "ORDER" "BY", "ORDER BY"),
   (Pat.word "WITH", "WITH"),
   (Pat.word "RANDOM", "RANDOM"),
   (Pat.word "NEWID", "NEWID"),
   (Pat.word "GETDATE", "GETDATE"),
   (Pat.word "NOW", "NOW"),
   (Pat.word "CURRENT_TIMESTAMP", "CURRENT_TIMESTAMP"),
   (Pat.word "SYSDATE", "SYSDATE"),
   (Pat.word "INSERT", "INSERT"),
   (Pat.word "UPDATE", "UPDATE"),
   (Pat.word "DELETE", "DELETE"),
   (Pat.word "CREATE", "CREATE"),
   (Pat.word "DROP", "DROP"),
   (Pat.word "ALTER", "ALTER"),
   (Pat.word "TRUNCATE", "TRUNCATE")]

/-- Python `not expr or not expr.strip()`: empty or all-whitespace. -/
def strIsBlank (s : String) : Bool := s.toList.all isPyWs

/-- The HOOK-006 diagnostic for an empty expression. -/
def emptyExprDiag (path : String) : Diagnostic :=
  Diagnostic.mk "HOOK-006" Severity.ERROR "Expression must be non-empty" path
    "Provide a valid SQL expression for the business key"

/-- The HOOK-006 diagnostic naming a forbidden keyword. -/
def forbiddenDiag (kw path : String) : Diagnostic :=
  Diagnostic.mk "HOOK-006" Severity.ERROR
    ("Expression contains forbidden pattern: " ++ kw ++
      ". Only pure expressions are allowed (Manifest SQL subset)")
    path
    ("Remove " ++ kw ++
      " and use only column references, literals, operators, CASE, CAST, and allowed functions")

/-- `validate_expr` (`core/expression.py`): empty check, then the first
matching forbidden pattern (early return), else no diagnostics. -/
def validate_expr (expr path : String) : List Diagnostic :=
  if strIsBlank expr then [emptyExprDiag path]
  else
    match FORBIDDEN_PATTERNS.find? (fun pn => patFound pn.1 expr) with
    | some pn => [forbiddenDiag pn.2 path]
    | none => []

/-! ## Registry deriver (`core/registry.py`) -/

/-- `_build_key_set`: `CONCEPT[~QUALIFIER]@SOURCE[~TENANT]`, with the
qualifier/tenant parts included only when truthy. -/
def _build_key_set (h : Hook) : String :=
  (strUpper h.concept ++
      (match h.qualifier with
       | some q => if q.isEmpty then "" else "~" ++ strUpper q
       | none => "")) ++
    "@" ++
    (strUpper h.source ++
      (match h.tenant with
       | some t => if t.isEmpty then "" else "~" ++ strUpper t
       | none => ""))

/-- `derive_key_sets`: the set of key-set strings over every hook of
every frame (Python `set.add` in two nested loops). -/
def derive_key_sets (m : Manifest) : Finset String :=
  m.frames.foldl
    (fun acc f => f.hooks.foldl (fun acc2 h => insert (_build_key_set h) acc2) acc) ∅

/-- `derive_concepts`: the set of hook `concept` fields. -/
def derive_concepts (m : Manifest) : Finset String :=
  m.frames.foldl
    (fun acc f => f.hooks.foldl (fun acc2 h => insert h.concept acc2) acc) ∅

/-! ## Rule set (`core/rules.py`).  Messages follow the source with the
surrounding quote characters dropped. -/

/-- MANIFEST-001: `manifest_version` must be valid semver. -/
def validate_manifest_version (m : Manifest) : List Diagnostic :=
  if is_valid_semver m.manifest_version then []
  else
    [Diagnostic.mk "MANIFEST-001" Severity.ERROR
      ("Invalid manifest_version: " ++ m.manifest_version ++
        ". Must be valid semver (MAJOR.MINOR.PATCH)")
      "manifest_version" "Use format like 1.0.0, 0.1.0, or 2.1.3"]

/-- MANIFEST-002: `schema_version` must be valid semver. -/
def validate_schema_version (m : Manifest) : List Diagnostic :=
  if is_valid_semver m.schema_version then []
  else
    [Diagnostic.mk "MANIFEST-002" Severity.ERROR
      ("Invalid schema_version: " ++ m.schema_version ++
        ". Must be valid semver (MAJOR.MINOR.PATCH)")
      "schema_version" "Use format like 1.0.0"]

/-- FRAME-001: frame must have at least one hook. -/
def validate_frame_has_hooks (f : Frame) (path : String) : List Diagnostic :=
  if f.hooks.isEmpty then
    [Diagnostic.mk "FRAME-001" Severity.ERROR
      ("Frame " ++ f.name ++ " has no hooks") (path ++ ".hooks")
      "Add at least one hook to the frame"]
  else []

/-- FRAME-002: frame name must match `<schema>.<table>`. -/
def validate_frame_name (f : Frame) (path : String) : List Diagnostic :=
  if is_valid_frame_name f.name then []
  else
    [Diagnostic.mk "FRAME-002" Severity.ERROR
      ("Invalid frame name: " ++ f.name ++
        ". Must match pattern <schema>.<table> in lower_snake_case")
      (path ++ ".name")
      "Use format like frame.customer, psa.order, staging.order_header"]

/-- FRAME-003: frame must have at least one primary hook. -/
def validate_frame_has_primary_hook (f : Frame) (path : String) : List Diagnostic :=
  if f.hooks.any (fun h => h.role == HookRole.PRIMARY) then []
  else
    [Diagnostic.mk "FRAME-003" Severity.ERROR
      ("Frame " ++ f.name ++ " has no primary hook. " ++
        "At least one hook must have role=primary to define the grain")
      (path ++ ".hooks")
      "Change at least one hooks role to primary"]

/-- FRAME-004: frame must have a source object. -/
def validate_frame_source_present (f : Frame) (path : String) : List Diagnostic :=
  match f.source with
  | none =>
    [Diagnostic.mk "FRAME-004" Severity.ERROR
      ("Frame " ++ f.name ++ " is missing source") (path ++ ".source")
      "Add a source with either relation or path"]
  | some _ => []

/-- FRAME-005: source must have exactly one of relation or path
(finding "both" short-circuits "neither"). -/
def validate_frame_source_exclusivity (f : Frame) (path : String) : List Diagnostic :=
  match f.source with
  | none => []
  | some s =>
    if s.relation.isSome && s.path.isSome then
      [Diagnostic.mk "FRAME-005" Severity.ERROR
        ("Frame " ++ f.name ++ " source has both relation and path. Only one is allowed")
        (path ++ ".source") "Remove either relation or path from source"]
    else if !s.relation.isSome && !s.path.isSome then
      [Diagnostic.mk "FRAME-005" Severity.ERROR
        ("Frame " ++ f.name ++ " source has neither relation nor path")
        (path ++ ".source") "Add either relation or path to source"]
    else []

/-- FRAME-006: a set relation/path must be a non-empty string. -/
def validate_frame_source_nonempty (f : Frame) (path : String) : List Diagnostic :=
  match f.source with
  | none => []
  | some s =>
    (match s.relation with
     | some r =>
       if r.isEmpty then
         [Diagnostic.mk "FRAME-006" Severity.ERROR
           ("Frame " ++ f.name ++ " source.relation is empty")
           (path ++ ".source.relation")
           "Provide a non-empty relation value (e.g., psa.customer)"]
       else []
     | none => []) ++
      (match s.path with
       | some p =>
         if p.isEmpty then
           [Diagnostic.mk "FRAME-006" Severity.ERROR
             ("Frame " ++ f.name ++ " source.path is empty")
             (path ++ ".source.path")
             "Provide a non-empty path value (e.g., //server/qvd/customer.qvd)"]
         else []
       | none => [])

/-- The `missing_fields` list of HOOK-001; `role` can never be missing
in the typed model. -/
def hookMissingFields (h : Hook) : List String :=
  (if h.name.isEmpty then ["name"] else []) ++
    (if h.concept.isEmpty then ["concept"] else []) ++
    (if h.source.isEmpty then ["source"] else []) ++
    (if h.expr.isEmpty then ["expr"] else [])

/-- HOOK-001: required fields must be present (truthy). -/
def validate_hook_required_fields (h : Hook) (path : String) : List Diagnostic :=
  if (hookMissingFields h).isEmpty then []
  else
    [Diagnostic.mk "HOOK-001" Severity.ERROR
      ("Hook is missing required fields: " ++ String.intercalate ", " (hookMissingFields h))
      path
      ("Add the missing fields: " ++ String.intercalate ", " (hookMissingFields h))]

/-- HOOK-002: hook name must match `<prefix><concept>[__<qualifier>]`. -/
def validate_hook_name (h : Hook) (path : String) (st : Settings) : List Diagnostic :=
  if is_valid_hook_name h.name then []
  else
    [Diagnostic.mk "HOOK-002" Severity.ERROR
      ("Invalid hook name: " ++ h.name ++
        ". Must match pattern <prefix><concept>[__<qualifier>]")
      (path ++ ".name")
      ("Use format like " ++ st.hookPfx ++ "customer or " ++ st.hookPfx ++ "employee__manager")]

/-- HOOK-003: in the typed model `role` is always one of the two enum
values, so both guards (`is not None`, `not isinstance`) are vacuous
and the rule returns no diagnostics. -/
def validate_hook_role (_h : Hook) (_path : String) : List Diagnostic := []

/-- HOOK-004: concept (and qualifier when truthy) must be
lower_snake_case. -/
def validate_hook_concept (h : Hook) (path : String) : List Diagnostic :=
  (if !h.concept.isEmpty && !is_lower_snake_case h.concept then
    [Diagnostic.mk "HOOK-004" Severity.ERROR
      ("Invalid concept name: " ++ h.concept ++ ". Must be lower_snake_case")
      (path ++ ".concept") "Use format like customer, order_line, product"]
  else []) ++
    (match h.qualifier with
     | some q =>
       if !q.isEmpty && !is_lower_snake_case q then
         [Diagnostic.mk "HOOK-004" Severity.ERROR
           ("Invalid qualifier: " ++ q ++ ". Must be lower_snake_case")
           (path ++ ".qualifier") "Use format like manager, billing, shipping"]
       else []
     | none => [])

/-- HOOK-005: source (and tenant when truthy) must be
UPPER_SNAKE_CASE. -/
def validate_hook_source (h : Hook) (path : String) : List Diagnostic :=
  (if !h.source.isEmpty && !is_upper_snake_case h.source then
    [Diagnostic.mk "HOOK-005" Severity.ERROR
      ("Invalid source: " ++ h.source ++ ". Must be UPPER_SNAKE_CASE")
      (path ++ ".source") "Use format like CRM, SAP, SAP_FIN"]
  else []) ++
    (match h.tenant with
     | some t =>
       if !t.isEmpty && !is_upper_snake_case t then
         [Diagnostic.mk "HOOK-005" Severity.ERROR
           ("Invalid tenant: " ++ t ++ ". Must be UPPER_SNAKE_CASE")
           (path ++ ".tenant") "Use format like AU, US, EU_WEST"]
       else []
     | none => [])

/-- HOOK-006: delegate to the expression validator. -/
def validate_hook_expr (h : Hook) (path : String) : List Diagnostic :=
  validate_expr h.expr (path ++ ".expr")

/-- The HOOK-007 diagnostic at hook index `i`. -/
def hook007Diag (frameName path : String) (i : Nat) (hookName : String) : Diagnostic :=
  Diagnostic.mk "HOOK-007" Severity.ERROR
    ("Duplicate hook name " ++ hookName ++ " in frame " ++ frameName)
    (path ++ ".hooks[" ++ toString i ++ "].name")
    ("Use unique hook names within each frame. " ++
      "Add a qualifier to distinguish (e.g., _hk__order__billing)")

/-- The loop of HOOK-007: `seen` is the set of names already passed
(Python adds each name after the check). -/
def hookUniqAux (frameName path : String) : List String → Nat → List Hook → List Diagnostic
  | _, _, [] => []
  | seen, i, h :: hs =>
    (if seen.contains h.name then [hook007Diag frameName path i h.name] else []) ++
      hookUniqAux frameName path (h.name :: seen) (i + 1) hs

/-- HOOK-007: hook names must be unique within a frame. -/
def validate_hook_name_uniqueness (f : Frame) (path : String) : List Diagnostic :=
  hookUniqAux f.name path [] 0 f.hooks

/-- CONCEPT-001: a declared concept must be used by some hook. -/
def validate_concept_in_frames (c : Concept) (path : String) (m : Manifest) :
    List Diagnostic :=
  if c.name ∈ derive_concepts m then []
  else
    [Diagnostic.mk "CONCEPT-001" Severity.ERROR
      ("Concept " ++ c.name ++ " is defined but not used in any hook") path
      "Either use this concept in a hook or remove it from the concepts section"]

/-- CONCEPT-002: type-only validation of `description`; the typed model
guarantees it, so the rule returns no diagnostics (per the source). -/
def validate_concept_description (_c : Concept) (_path : String) : List Diagnostic := []

/-- The loop of CONCEPT-003: `seen` maps a name to the index of its
first occurrence; a name is recorded only when absent. -/
def conceptDupAux : List (String × Nat) → Nat → List Concept → List Diagnostic
  | _, _, [] => []
  | seen, i, c :: cs =>
    match seen.lookup c.name with
    | some j =>
      Diagnostic.mk "CONCEPT-003" Severity.ERROR
          ("Duplicate concept name: " ++ c.name ++
            " (first defined at concepts[" ++ toString j ++ "])")
          ("concepts[" ++ toString i ++ "].name")
          "Remove duplicate concept or rename one of them" ::
        conceptDupAux seen (i + 1) cs
    | none => conceptDupAux ((c.name, i) :: seen) (i + 1) cs

/-- CONCEPT-003: no duplicate concept names. -/
def validate_no_duplicate_concepts (m : Manifest) : List Diagnostic :=
  conceptDupAux [] 0 m.concepts

/-- CONCEPT-W01: warn above 100 concepts. -/
def warn_concept_count (m : Manifest) : List Diagnostic :=
  if m.concepts.length > 100 then
    [Diagnostic.mk "CONCEPT-W01" Severity.WARN
      ("Manifest has " ++ toString m.concepts.length ++
        " concepts (exceeds 100). Consider splitting into multiple manifests")
      "concepts" "Group related concepts into separate manifests by domain"]
  else []

/-- HOOK-W01: warn when the hook uses the weak prefix but the first
matching concept has `is_weak=False` (Python `next(...)` over the
concepts list). -/
def warn_weak_hook_mismatch (h : Hook) (path : String) (concepts : List Concept) :
    List Diagnostic :=
  match concepts.find? (fun c => c.name == h.concept) with
  | some c =>
    if strHasPfx h.name "_wk__" && !c.is_weak then
      [Diagnostic.mk "HOOK-W01" Severity.WARN
        ("Hook " ++ h.name ++ " uses weak prefix but concept " ++ h.concept ++
          " has is_weak=False")
        path "Either set concept is_weak=True or use strong hook prefix"]
    else []
  | none => []

/-- FRAME-W01: warn when a non-empty frame has only foreign hooks.
Defined for fidelity; the orchestrator never invokes it. -/
def warn_no_primary_only_foreign (f : Frame) (path : String) : List Diagnostic :=
  if f.hooks.isEmpty then []
  else if f.hooks.any (fun h => h.role == HookRole.PRIMARY) then []
  else
    [Diagnostic.mk "FRAME-W01" Severity.WARN
      ("Frame " ++ f.name ++ " has no primary hook. " ++
        "This frame may be a lookup table or needs review")
      (path ++ ".hooks")
      "Add a primary hook or confirm this is intentional for a lookup"]

/-- Python `frame.source.relation or frame.source.path or ""`. -/
def orStr (a : Option String) (b : String) : String :=
  match a with
  | some s => if s.isEmpty then b else s
  | none => b

/-- The source key of a frame for FRAME-W02. -/
def sourceKeyStr (s : Source) : String := orStr s.relation (orStr s.path "")

/-- Append `fname` to the bucket of `key`, keeping first-insertion
order (Python dict). -/
def addFrameSource : List (String × List String) → String → String →
    List (String × List String)
  | [], key, fname => [(key, [fname])]
  | (k, ns) :: rest, key, fname =>
    if k == key then (k, ns ++ [fname]) :: rest
    else (k, ns) :: addFrameSource rest key fname

/-- The `sources` dict of FRAME-W02, in insertion order. -/
def collectSources : List (String × List String) → List Frame →
    List (String × List String)
  | acc, [] => acc
  | acc, f :: fs =>
    match f.source with
    | none => collectSources acc fs
    | some s =>
      let key := sourceKeyStr s
      if key.isEmpty then collectSources acc fs
      else collectSources (addFrameSource acc key f.name) fs

/-- FRAME-W02: warn when one source value is used by several frames. -/
def warn_duplicate_source (m : Manifest) : List Diagnostic :=
  (collectSources [] m.frames).filterMap fun kv =>
    if kv.2.length > 1 then
      some (Diagnostic.mk "FRAME-W02" Severity.WARN
        ("Source " ++ kv.1 ++ " is used by multiple frames: " ++
          String.intercalate ", " kv.2)
        "frames" "Review if these frames should share a source or be consolidated")
    else none

/-- FRAME-W03: warn above 20 hooks in a frame. -/
def warn_too_many_hooks (f : Frame) (path : String) : List Diagnostic :=
  if f.hooks.length > 20 then
    [Diagnostic.mk "FRAME-W03" Severity.WARN
      ("Frame " ++ f.name ++ " has " ++ toString f.hooks.length ++
        " hooks (exceeds 20). Consider splitting into multiple frames")
      (path ++ ".hooks") "Group related hooks into separate frames by concern"]
  else []

/-- MANIFEST-W01: warn above 50 frames. -/
def warn_too_many_frames (m : Manifest) : List Diagnostic :=
  if m.frames.length > 50 then
    [Diagnostic.mk "MANIFEST-W01" Severity.WARN
      ("Manifest has " ++ toString m.frames.length ++
        " frames (exceeds 50). Consider splitting into multiple manifests")
      "frames" "Group related frames into separate manifests by domain"]
  else []

/-- The fixed `known_fields` of MANIFEST-W02. -/
def knownFields : List String :=
  ["manifest_version", "schema_version", "metadata", "settings", "frames", "concepts"]

/-- MANIFEST-W02: warn on unknown top-level fields.  `raw_data` is
embedded as its key list; Python iterates a set difference in
unspecified order, which the final sort makes deterministic, so the
key-list order stands in for it. -/
def warn_unknown_fields (rawKeys : List String) : List Diagnostic :=
  (rawKeys.filter (fun k => !knownFields.contains k)).map fun k =>
    Diagnostic.mk "MANIFEST-W02" Severity.WARN
      ("Unknown field " ++ k ++ " in manifest root. " ++
        "This may be from a newer schema version")
      k "Check schema version compatibility or remove unknown field"

/-! ## Validation orchestrator (`core/validation.py`) -/

/-- The hook-level rules for one hook (`validate_manifest`, inner loop),
HOOK-001 through HOOK-006 plus HOOK-W01 when warnings are enabled. -/
def hookDiags (st : Settings) (iw : Bool) (concepts : List Concept)
    (hookPath : String) (h : Hook) : List Diagnostic :=
  validate_hook_required_fields h hookPath ++
    validate_hook_name h hookPath st ++
    validate_hook_role h hookPath ++
    validate_hook_concept h hookPath ++
    validate_hook_source h hookPath ++
    validate_hook_expr h hookPath ++
    (if iw then warn_weak_hook_mismatch h hookPath concepts else [])

/-- The hook loop with `enumerate`-style index `j`. -/
def hooksDiags (st : Settings) (iw : Bool) (concepts : List Concept)
    (framePath : String) : Nat → List Hook → List Diagnostic
  | _, [] => []
  | j, h :: hs =>
    hookDiags st iw concepts (framePath ++ ".hooks[" ++ toString j ++ "]") h ++
      hooksDiags st iw concepts framePath (j + 1) hs

/-- The frame-level rules plus the hook loop for one frame at index `i`. -/
def frameDiags (st : Settings) (iw : Bool) (concepts : List Concept)
    (i : Nat) (f : Frame) : List Diagnostic :=
  validate_frame_name f ("frames[" ++ toString i ++ "]") ++
    validate_frame_has_hooks f ("frames[" ++ toString i ++ "]") ++
    validate_frame_has_primary_hook f ("frames[" ++ toString i ++ "]") ++
    validate_frame_source_present f ("frames[" ++ toString i ++ "]") ++
    validate_frame_source_exclusivity f ("frames[" ++ toString i ++ "]") ++
    validate_frame_source_nonempty f ("frames[" ++ toString i ++ "]") ++
    validate_hook_name_uniqueness f ("frames[" ++ toString i ++ "]") ++
    hooksDiags st iw concepts ("frames[" ++ toString i ++ "]") 0 f.hooks ++
    (if iw then warn_too_many_hooks f ("frames[" ++ toString i ++ "]") else [])

/-- The frame loop with `enumerate`-style index `i`. -/
def framesDiags (st : Settings) (iw : Bool) (concepts : List Concept) :
    Nat → List Frame → List Diagnostic
  | _, [] => []
  | i, f :: fs =>
    frameDiags st iw concepts i f ++ framesDiags st iw concepts (i + 1) fs

/-- The concept loop: CONCEPT-001 and CONCEPT-002 per declared concept. -/
def conceptsDiags (m : Manifest) : Nat → List Concept → List Diagnostic
  | _, [] => []
  | i, c :: cs =>
    validate_concept_in_frames c ("concepts[" ++ toString i ++ "]") m ++
      validate_concept_description c ("concepts[" ++ toString i ++ "]") ++
      conceptsDiags m (i + 1) cs

/-- All diagnostics of `validate_manifest` before the final sort, in
accumulation order. -/
def rawDiags (m : Manifest) (include_warnings : Bool)
    (raw_data : Option (List String)) : List Diagnostic :=
  validate_manifest_version m ++
    validate_schema_version m ++
    framesDiags m.settings include_warnings m.concepts 0 m.frames ++
    validate_no_duplicate_concepts m ++
    conceptsDiags m 0 m.concepts ++
    (if include_warnings then
      warn_concept_count m ++
        warn_duplicate_source m ++
        warn_too_many_frames m ++
        (match raw_data with
         | some keys => warn_unknown_fields keys
         | none => [])
    else [])

/-- `severity_order` of the sort key: ERROR first. -/
def sevRank : Severity → Nat
  | Severity.ERROR => 0
  | Severity.WARN => 1

/-- The sort key order `(severity_order, rule_id, path)`, compared
lexicographically as Python compares tuples. -/
def diagKeyLe (a b : Diagnostic) : Bool :=
  if sevRank a.severity < sevRank b.severity then true
  else if sevRank b.severity < sevRank a.severity then false
  else if strLt a.rule_id b.rule_id then true
  else if strLt b.rule_id a.rule_id then false
  else strLe a.path b.path

/-- The sort-key order as a relation. -/
def diagLe (a b : Diagnostic) : Prop := diagKeyLe a b = true

instance decDiagLe : DecidableRel diagLe := fun a b =>
  inferInstanceAs (Decidable (diagKeyLe a b = true))

/-- `validate_manifest`: run all rules, then stably sort the collected
diagnostics by `(severity_order, rule_id, path)`.  Python `list.sort`
is a stable sort by that key; a stable sort by a total preorder is a
unique function, embedded as insertion sort. -/
def validate_manifest (m : Manifest) (include_warnings : Bool)
    (raw_data : Option (List String)) : List Diagnostic :=
  List.insertionSort diagLe (rawDiags m include_warnings raw_data)

/-! ## Spec-side definitions.

These follow the words of the specification (not the source) and exist
to be compared against the source-derived definitions above: the
segment grammar and decomposition of `is_valid_hook_name` (spec §4.1 /
§8 grammar round-trip) and the three-component decomposition of
`is_valid_semver` (spec §4.1). -/

/-- Spec segment grammar `[a-z][a-z0-9]*(_[a-z0-9]+)*` stated
structurally: a first lowercase letter, a run of `[a-z0-9]`, then
groups each of an underscore followed by a non-empty `[a-z0-9]` run. -/
def SegSpec (l : List Char) : Prop :=
  ∃ (c : Char) (rn : List Char) (groups : List (List Char)),
    l = c :: (rn ++ groups.flatten) ∧
      isLowerAZ c = true ∧
      (∀ x ∈ rn, isLowAl x = true) ∧
      ∀ g ∈ groups, ∃ (d : Char) (ds : List Char),
        g = '_' :: d :: ds ∧ ∀ x ∈ d :: ds, isLowAl x = true

/-- Spec decomposition of a hook name: a prefix `_hk__` or `_wk__`, a
concept segment, and optionally `__` plus a qualifier segment. -/
def HookNameSpec (l : List Char) : Prop :=
  ∃ (p : String) (c : List Char) (q : Option (List Char)),
    (p = "_hk__" ∨ p = "_wk__") ∧ SegSpec c ∧
      match q with
      | none => l = p.toList ++ c
      | some qs => SegSpec qs ∧ l = p.toList ++ (c ++ ('_' :: '_' :: qs))

/-- Spec decomposition of a semver string: exactly three non-empty
all-digit components separated by single dots. -/
def SemverSpec (l : List Char) : Prop :=
  ∃ a b c : List Char,
    a ≠ [] ∧ b ≠ [] ∧ c ≠ [] ∧
      (∀ x ∈ a, isDigit09 x = true) ∧
      (∀ x ∈ b, isDigit09 x = true) ∧
      (∀ x ∈ c, isDigit09 x = true) ∧
      l = a ++ ('.' :: (b ++ ('.' :: c)))

/-! ## Concrete inputs used by witnesses and counterexamples -/

/-- A well-formed primary hook on concept customer. -/
def hookEx : Hook :=
  Hook.mk "_hk__customer" HookRole.PRIMARY "customer" none "CRM" none "customer_id"

/-- A well-formed primary hook on concept order. -/
def hookEx2 : Hook :=
  Hook.mk "_hk__order" HookRole.PRIMARY "order" none "SAP" none "order_id"

/-- A relational source. -/
def srcEx : Source := Source.mk (some "psa.customer") none

/-- A second relational source. -/
def srcEx2 : Source := Source.mk (some "psa.order") none

/-- A well-formed frame. -/
def frameEx : Frame := Frame.mk "frame.customer" (some srcEx) [hookEx]

/-- A second well-formed frame. -/
def frameEx2 : Frame := Frame.mk "frame.order" (some srcEx2) [hookEx2]

/-- A frame with an empty hook list. -/
def frameEmptyHooks : Frame := Frame.mk "frame.empty" (some srcEx) []

/-- A frame whose two hooks share one name. -/
def frameDupHooks : Frame := Frame.mk "frame.dup" (some srcEx) [hookEx, hookEx]

/-- The default settings. -/
def settingsEx : Settings := Settings.mk "_hk__" "_wk__" "|"

/-- A two-frame manifest. -/
def manifestEx6a : Manifest :=
  Manifest.mk "1.0.0" "1.0.0" settingsEx [frameEx, frameEx2] []

/-- The same manifest with the frames swapped. -/
def manifestEx6b : Manifest :=
  Manifest.mk "1.0.0" "1.0.0" settingsEx [frameEx2, frameEx] []

/-- A manifest whose frame at index 0 has no hooks. -/
def manifestEx4 : Manifest :=
  Manifest.mk "1.0.0" "1.0.0" settingsEx [frameEmptyHooks] []

/-- A weak-prefixed hook on concept genre. -/
def hookWeakEx : Hook :=
  Hook.mk "_wk__genre" HookRole.PRIMARY "genre" none "CRM" none "genre_id"

/-- Two concepts sharing the name genre: the first weak, the second
not.  Exhibits the first-match behaviour of HOOK-W01. -/
def conceptsDupEx : List Concept :=
  [Concept.mk "genre" [] "" [] true, Concept.mk "genre" [] "" [] false]

/-! ## Order lemmas for the diagnostic sort key -/

theorem charEqOfToNat {a b : Char} (h : a.toNat = b.toNat) : a = b := by
  apply Char.ext
  apply UInt32.ext
  simpa [Char.toNat] using h

theorem clLt_cons_iff (x y : Char) (xs ys : List Char) :
    clLt (x :: xs) (y :: ys) = true ↔
      x.toNat < y.toNat ∨ (x.toNat = y.toNat ∧ clLt xs ys = true) := by
  simp only [clLt]
  split_ifs with h1 h2
  · simp [h1]
  · simp only [Bool.false_eq_true, false_iff]
    rintro (h | ⟨h, _⟩) <;> omega
  · have heq : x.toNat = y.toNat := by omega
    constructor
    · intro h
      exact Or.inr ⟨heq, h⟩
    · rintro (h | ⟨_, h⟩)
      · omega
      · exact h

theorem clLt_irrefl (l : List Char) : clLt l l = false := by
  induction l with
  | nil => rfl
  | cons x xs ih => simp [clLt, ih]

theorem clLt_total (a : List Char) :
    ∀ b : List Char, clLt a b = true ∨ clLt b a = true ∨ a = b := by
  induction a with
  | nil =>
    intro b
    cases b with
    | nil => exact Or.inr (Or.inr rfl)
    | cons y ys => exact Or.inl (by simp [clLt])
  | cons x xs ih =>
    intro b
    cases b with
    | nil => exact Or.inr (Or.inl (by simp [clLt]))
    | cons y ys =>
      rcases Nat.lt_trichotomy x.toNat y.toNat with h | h | h
      · exact Or.inl ((clLt_cons_iff x y xs ys).mpr (Or.inl h))
      · rcases ih ys with h2 | h2 | h2
        · exact Or.inl ((clLt_cons_iff x y xs ys).mpr (Or.inr ⟨h, h2⟩))
        · exact Or.inr (Or.inl ((clLt_cons_iff y x ys xs).mpr (Or.inr ⟨h.symm, h2⟩)))
        · exact Or.inr (Or.inr (by rw [charEqOfToNat h, h2]))
      · exact Or.inr (Or.inl ((clLt_cons_iff y x ys xs).mpr (Or.inl h)))

theorem clLt_asymm (a : List Char) :
    ∀ b : List Char, clLt a b = true → clLt b a = false := by
  induction a with
  | nil => intro b h; cases b <;> simp [clLt]
  | cons x xs ih =>
    intro b h
    cases b with
    | nil => simp [clLt] at h
    | cons y ys =>
      rw [clLt_cons_iff] at h
      rw [Bool.eq_false_iff]
      intro hc
      rw [clLt_cons_iff] at hc
      rcases h with h | ⟨h, hr⟩
      · rcases hc with hc | ⟨hc, _⟩ <;> omega
      · rcases hc with hc | ⟨_, hc⟩
        · omega
        · exact absurd hc (by rw [ih ys hr]; simp)

theorem clLt_trans (a : List Char) :
    ∀ b c : List Char, clLt a b = true → clLt b c = true → clLt a c = true := by
  induction a with
  | nil =>
    intro b c hab hbc
    cases c with
    | nil => cases b <;> simp [clLt] at hab hbc
    | cons z zs => simp [clLt]
  | cons x xs ih =>
    intro b c hab hbc
    cases b with
    | nil => simp [clLt] at hab
    | cons y ys =>
      cases c with
      | nil => simp [clLt] at hbc
      | cons z zs =>
        rw [clLt_cons_iff] at hab hbc ⊢
        rcases hab with h1 | ⟨h1, hr1⟩
        · rcases hbc with h2 | ⟨h2, _⟩
          · exact Or.inl (by omega)
          · exact Or.inl (by omega)
        · rcases hbc with h2 | ⟨h2, hr2⟩
          · exact Or.inl (by omega)
          · exact Or.inr ⟨by omega, ih ys zs hr1 hr2⟩

theorem clLt_false_trans (a b c : List Char)
    (h1 : clLt b a = false) (h2 : clLt c b = false) : clLt c a = false := by
  rw [Bool.eq_false_iff]
  intro hca
  rcases clLt_total b c with h | h | h
  · have := clLt_trans b c a h hca
    rw [h1] at this
    exact Bool.false_ne_true this
  · rw [h2] at h
    exact Bool.false_ne_true h
  · rw [h] at h1
    rw [hca] at h1
    exact absurd h1 (by simp)

theorem strEqOfNotLt {a b : String} (h1 : strLt a b = false) (h2 : strLt b a = false) :
    a = b := by
  rcases clLt_total a.toList b.toList with h | h | h
  · rw [strLt] at h1
    rw [h] at h1
    exact absurd h1 (by simp)
  · rw [strLt] at h2
    rw [h] at h2
    exact absurd h2 (by simp)
  · exact String.ext h

/-- `diagKeyLe` is exactly the lexicographic comparison of the key
`(severity_order, rule_id, path)`. -/
theorem diagKeyLe_iff (a b : Diagnostic) :
    diagKeyLe a b = true ↔
      sevRank a.severity < sevRank b.severity ∨
        (sevRank a.severity = sevRank b.severity ∧
          (strLt a.rule_id b.rule_id = true ∨
            (a.rule_id = b.rule_id ∧ strLe a.path b.path = true))) := by
  unfold diagKeyLe
  split_ifs with h1 h2 h3 h4
  · simp [h1]
  · simp only [Bool.false_eq_true, false_iff]
    rintro (h | ⟨h, _⟩) <;> omega
  · constructor
    · intro _
      exact Or.inr ⟨by omega, Or.inl h3⟩
    · intro _
      rfl
  · simp only [Bool.false_eq_true, false_iff]
    rintro (h | ⟨_, hlt | ⟨hre, _⟩⟩)
    · omega
    · exact h3 hlt
    · rw [hre] at h4
      rw [strLt, clLt_irrefl] at h4
      exact Bool.false_ne_true h4
  · have hre : a.rule_id = b.rule_id :=
      strEqOfNotLt (Bool.eq_false_iff.mpr h3) (Bool.eq_false_iff.mpr h4)
    constructor
    · intro hp
      exact Or.inr ⟨by omega, Or.inr ⟨hre, hp⟩⟩
    · rintro (h | ⟨_, hlt | ⟨_, hp⟩⟩)
      · omega
      · exact absurd hlt h3
      · exact hp

theorem diagLe_total (a b : Diagnostic) : diagLe a b ∨ diagLe b a := by
  unfold diagLe
  rw [diagKeyLe_iff, diagKeyLe_iff]
  rcases Nat.lt_trichotomy (sevRank a.severity) (sevRank b.severity) with h | h | h
  · exact Or.inl (Or.inl h)
  · rcases clLt_total a.rule_id.toList b.rule_id.toList with h2 | h2 | h2
    · exact Or.inl (Or.inr ⟨h, Or.inl h2⟩)
    · exact Or.inr (Or.inr ⟨h.symm, Or.inl h2⟩)
    · have hre : a.rule_id = b.rule_id := String.ext h2
      by_cases hp : strLt b.path a.path = true
      · refine Or.inr (Or.inr ⟨h.symm, Or.inr ⟨hre.symm, ?_⟩⟩)
        rw [strLe, strLt, clLt_asymm _ _ hp]
        rfl
      · refine Or.inl (Or.inr ⟨h, Or.inr ⟨hre, ?_⟩⟩)
        rw [strLe, Bool.eq_false_iff.mpr hp]
        rfl
  · exact Or.inr (Or.inl h)

theorem diagLe_trans (a b c : Diagnostic) :
    diagLe a b → diagLe b c → diagLe a c := by
  unfold diagLe
  rw [diagKeyLe_iff, diagKeyLe_iff, diagKeyLe_iff]
  rintro (h1 | ⟨h1, hr1⟩) (h2 | ⟨h2, hr2⟩)
  · exact Or.inl (by omega)
  · exact Or.inl (by omega)
  · exact Or.inl (by omega)
  · refine Or.inr ⟨by omega, ?_⟩
    rcases hr1 with hl1 | ⟨he1, hp1⟩
    · rcases hr2 with hl2 | ⟨he2, hp2⟩
      · exact Or.inl (clLt_trans _ _ _ hl1 hl2)
      · exact Or.inl (he2 ▸ hl1)
    · rcases hr2 with hl2 | ⟨he2, hp2⟩
      · exact Or.inl (he1 ▸ hl2)
      · refine Or.inr ⟨he1.trans he2, ?_⟩
        rw [strLe] at hp1 hp2 ⊢
        rw [Bool.not_eq_true'] at hp1 hp2 ⊢
        exact clLt_false_trans _ _ _ hp1 hp2

/-- C1: for every manifest and any `include_warnings`/`raw_data`
arguments, the diagnostic list returned by `validate_manifest` is
sorted by the key (severity rank with ERROR=0 and WARN=1, then rule_id
lexically, then path lexically): no WARN diagnostic precedes any ERROR
diagnostic, within equal severity `rule_id` is non-decreasing, and
within equal `rule_id`, `path` is non-decreasing. -/
theorem validate_manifest_ordering (m : Manifest) (iw : Bool)
    (raw : Option (List String)) :
    List.Pairwise
      (fun a b =>
        sevRank a.severity < sevRank b.severity ∨
          (sevRank a.severity = sevRank b.severity ∧
            (strLt a.rule_id b.rule_id = true ∨
              (a.rule_id = b.rule_id ∧ strLe a.path b.path = true))))
      (validate_manifest m iw raw) := by
  have hs : List.Sorted diagLe (validate_manifest m iw raw) := by
    haveI : IsTotal Diagnostic diagLe := ⟨diagLe_total⟩
    haveI : IsTrans Diagnostic diagLe := ⟨diagLe_trans⟩
    exact List.sorted_insertionSort diagLe (rawDiags m iw raw)
  exact List.Pairwise.imp (fun hab => (diagKeyLe_iff _ _).mp hab) hs

/-! ## Key-set derivation (C6) -/

theorem hooks_foldl_mem (hs : List Hook) :
    ∀ (acc : Finset String) (x : String),
      x ∈ hs.foldl (fun a h => insert (_build_key_set h) a) acc ↔
        x ∈ acc ∨ ∃ h ∈ hs, _build_key_set h = x := by
  induction hs with
  | nil => intro acc x; simp
  | cons h hs ih =>
    intro acc x
    rw [List.foldl_cons, ih]
    simp only [Finset.mem_insert, List.mem_cons]
    constructor
    · rintro ((hx | hx) | ⟨h2, hh2, hk⟩)
      · exact Or.inr ⟨h, Or.inl rfl, hx.symm⟩
      · exact Or.inl hx
      · exact Or.inr ⟨h2, Or.inr hh2, hk⟩
    · rintro (hx | ⟨h2, rfl | hh2, hk⟩)
      · exact Or.inl (Or.inr hx)
      · exact Or.inl (Or.inl hk.symm)
      · exact Or.inr ⟨h2, hh2, hk⟩

theorem frames_foldl_mem (fs : List Frame) :
    ∀ (acc : Finset String) (x : String),
      x ∈ fs.foldl
          (fun acc f => f.hooks.foldl (fun a h => insert (_build_key_set h) a) acc)
          acc ↔
        x ∈ acc ∨ ∃ f ∈ fs, ∃ h ∈ f.hooks, _build_key_set h = x := by
  induction fs with
  | nil => intro acc x; simp
  | cons f fs ih =>
    intro acc x
    rw [List.foldl_cons, ih, hooks_foldl_mem]
    simp only [List.mem_cons]
    constructor
    · rintro ((hx | ⟨h, hh, hk⟩) | ⟨f2, hf2, hrest⟩)
      · exact Or.inl hx
      · exact Or.inr ⟨f, Or.inl rfl, h, hh, hk⟩
      · exact Or.inr ⟨f2, Or.inr hf2, hrest⟩
    · rintro (hx | ⟨f2, rfl | hf2, hrest⟩)
      · exact Or.inl (Or.inl hx)
      · exact Or.inl (Or.inr hrest)
      · exact Or.inr ⟨f2, hf2, hrest⟩

theorem derive_key_sets_mem (m : Manifest) (x : String) :
    x ∈ derive_key_sets m ↔ ∃ f ∈ m.frames, ∃ h ∈ f.hooks, _build_key_set h = x := by
  unfold derive_key_sets
  rw [frames_foldl_mem]
  simp

/-- C6: `derive_key_sets` equals the union over every hook in every
frame of the canonical `_build_key_set` string (so duplicates across
frames collapse by value), and is invariant under any reordering of
the frames list. -/
theorem derive_key_sets_spec (m m2 : Manifest) (hperm : m.frames.Perm m2.frames) :
    derive_key_sets m = derive_key_sets m2 ∧
      ∀ x, x ∈ derive_key_sets m ↔
        ∃ f ∈ m.frames, ∃ h ∈ f.hooks, _build_key_set h = x := by
  constructor
  · apply Finset.ext
    intro x
    rw [derive_key_sets_mem, derive_key_sets_mem]
    constructor
    · rintro ⟨f, hf, hrest⟩
      exact ⟨f, hperm.mem_iff.mp hf, hrest⟩
    · rintro ⟨f, hf, hrest⟩
      exact ⟨f, hperm.mem_iff.mpr hf, hrest⟩
  · intro x
    exact derive_key_sets_mem m x

/-- Witness for C6 at a concrete two-frame manifest and its swap. -/
theorem derive_key_sets_spec_witness :
    derive_key_sets manifestEx6a = derive_key_sets manifestEx6b ∧
      ∀ x, x ∈ derive_key_sets manifestEx6a ↔
        ∃ f ∈ manifestEx6a.frames, ∃ h ∈ f.hooks, _build_key_set h = x :=
  derive_key_sets_spec manifestEx6a manifestEx6b (by decide)

/-! ## Expression validation (C2) -/

theorem validate_expr_of_found {expr path : String} {pn : Pat × String}
    (hb : strIsBlank expr = false)
    (hf : FORBIDDEN_PATTERNS.find? (fun pn => patFound pn.1 expr) = some pn) :
    validate_expr expr path = [forbiddenDiag pn.2 path] := by
  simp [validate_expr, hb, hf]

theorem validate_expr_of_clean {expr path : String}
    (hb : strIsBlank expr = false)
    (hf : FORBIDDEN_PATTERNS.find? (fun pn => patFound pn.1 expr) = none) :
    validate_expr expr path = [] := by
  simp [validate_expr, hb, hf]

/-- C2: `validate_expr` returns exactly the empty-expression HOOK-006
ERROR diagnostic on a blank expression; otherwise, when some forbidden
pattern of the fixed list matches (word-boundary anchored and
case-insensitive, so `selector` does not match `SELECT`), it returns
exactly one HOOK-006 ERROR diagnostic naming a matched keyword; when
no pattern matches it returns the empty list; and it never returns
more than one diagnostic. -/
theorem validate_expr_spec (expr path : String) :
    (validate_expr expr path).length ≤ 1 ∧
      (strIsBlank expr = true → validate_expr expr path = [emptyExprDiag path]) ∧
      (strIsBlank expr = false →
        (FORBIDDEN_PATTERNS.any (fun pn => patFound pn.1 expr) = true →
          ∃ pn ∈ FORBIDDEN_PATTERNS, patFound pn.1 expr = true ∧
            validate_expr expr path = [forbiddenDiag pn.2 path] ∧
            (forbiddenDiag pn.2 path).rule_id = "HOOK-006" ∧
            (forbiddenDiag pn.2 path).severity = Severity.ERROR) ∧
        (FORBIDDEN_PATTERNS.any (fun pn => patFound pn.1 expr) = false →
          validate_expr expr path = [])) ∧
      validate_expr "selector" path = [] := by
  refine ⟨?_, ?_, ?_, ?_⟩
  · by_cases hb : strIsBlank expr = true
    · simp [validate_expr, hb]
    · rw [Bool.not_eq_true] at hb
      cases hf : FORBIDDEN_PATTERNS.find? (fun pn => patFound pn.1 expr) with
      | none => simp [validate_expr_of_clean hb hf]
      | some pn => simp [validate_expr_of_found hb hf]
  · intro hb
    simp [validate_expr, hb]
  · intro hb
    constructor
    · intro hany
      have hsome : (FORBIDDEN_PATTERNS.find? (fun pn => patFound pn.1 expr)).isSome = true := by
        rw [List.find?_isSome]
        exact List.any_eq_true.mp hany
      cases hf : FORBIDDEN_PATTERNS.find? (fun pn => patFound pn.1 expr) with
      | none => rw [hf] at hsome; exact absurd hsome (by simp)
      | some pn =>
        have hpred := List.find?_some hf
        have hmem : pn ∈ FORBIDDEN_PATTERNS := List.mem_of_find?_eq_some hf
        exact ⟨pn, hmem, by simpa using hpred, validate_expr_of_found hb hf, rfl, rfl⟩
    · intro hnone
      refine validate_expr_of_clean hb ?_
      rw [List.find?_eq_none]
      exact List.any_eq_false.mp hnone
  · have hb : strIsBlank "selector" = false := by decide
    have hf : FORBIDDEN_PATTERNS.find? (fun pn => patFound pn.1 "selector") = none := by
      decide
    exact validate_expr_of_clean hb hf

/-! ## FRAME-001 and FRAME-003 both fire on an empty-hooks frame (C4) -/

theorem mem_validate_manifest_iff (m : Manifest) (iw : Bool)
    (raw : Option (List String)) (d : Diagnostic) :
    d ∈ validate_manifest m iw raw ↔ d ∈ rawDiags m iw raw := by
  unfold validate_manifest
  exact (List.perm_insertionSort diagLe (rawDiags m iw raw)).mem_iff

/-- C4: when the frame at index 0 has an empty hooks list,
`validate_manifest` reports both FRAME-001 (at `frames[0].hooks`) and
FRAME-003 for that frame: the two conditions are checked
independently. -/
theorem frame001_and_frame003_fire (m : Manifest) (iw : Bool)
    (raw : Option (List String)) (f : Frame) (rest : List Frame)
    (hf : m.frames = f :: rest) (hh : f.hooks = []) :
    (∃ d ∈ validate_manifest m iw raw,
        d.rule_id = "FRAME-001" ∧ d.path = "frames[0].hooks") ∧
      ∃ d ∈ validate_manifest m iw raw,
        d.rule_id = "FRAME-003" ∧ d.path = "frames[0].hooks" := by
  have hp : ("frames[" ++ toString (0 : Nat) ++ "]") ++ ".hooks" = "frames[0].hooks" := by
    decide
  constructor
  · refine ⟨Diagnostic.mk "FRAME-001" Severity.ERROR
      ("Frame " ++ f.name ++ " has no hooks") "frames[0].hooks"
      "Add at least one hook to the frame", ?_, rfl, rfl⟩
    rw [mem_validate_manifest_iff]
    have h1 : validate_frame_has_hooks f ("frames[" ++ toString (0 : Nat) ++ "]") =
        [Diagnostic.mk "FRAME-001" Severity.ERROR
          ("Frame " ++ f.name ++ " has no hooks") "frames[0].hooks"
          "Add at least one hook to the frame"] := by
      rw [validate_frame_has_hooks, hh, hp]
      rfl
    simp only [rawDiags, hf, framesDiags, frameDiags, List.mem_append, h1,
      List.mem_singleton]
    tauto
  · refine ⟨Diagnostic.mk "FRAME-003" Severity.ERROR
      ("Frame " ++ f.name ++ " has no primary hook. " ++
        "At least one hook must have role=primary to define the grain")
      "frames[0].hooks" "Change at least one hooks role to primary", ?_, rfl, rfl⟩
    rw [mem_validate_manifest_iff]
    have h3 : validate_frame_has_primary_hook f ("frames[" ++ toString (0 : Nat) ++ "]") =
        [Diagnostic.mk "FRAME-003" Severity.ERROR
          ("Frame " ++ f.name ++ " has no primary hook. " ++
            "At least one hook must have role=primary to define the grain")
          "frames[0].hooks" "Change at least one hooks role to primary"] := by
      rw [validate_frame_has_primary_hook, hh, hp]
      rfl
    simp only [rawDiags, hf, framesDiags, frameDiags, List.mem_append, h3,
      List.mem_singleton]
    tauto

/-- Witness for C4 at a concrete one-frame manifest with no hooks. -/
theorem frame001_and_frame003_fire_witness :
    (∃ d ∈ validate_manifest manifestEx4 true none,
        d.rule_id = "FRAME-001" ∧ d.path = "frames[0].hooks") ∧
      ∃ d ∈ validate_manifest manifestEx4 true none,
        d.rule_id = "FRAME-003" ∧ d.path = "frames[0].hooks" :=
  frame001_and_frame003_fire manifestEx4 true none frameEmptyHooks [] rfl rfl

/-! ## HOOK-007 reports one diagnostic per duplicated name (C5) -/

theorem hookUniqAux_append (fn p : String) (as : List Hook) :
    ∀ (bs : List Hook) (seen : List String) (i : Nat),
      hookUniqAux fn p seen i (as ++ bs) =
        hookUniqAux fn p seen i as ++
          hookUniqAux fn p (as.reverse.map Hook.name ++ seen) (i + as.length) bs := by
  induction as with
  | nil =>
    intro bs seen i
    simp [hookUniqAux]
  | cons a as ih =>
    intro bs seen i
    simp only [List.cons_append, hookUniqAux, List.append_eq]
    rw [ih bs (a.name :: seen) (i + 1), List.append_assoc]
    have hseen : as.reverse.map Hook.name ++ (a.name :: seen) =
        (a :: as).reverse.map Hook.name ++ seen := by
      simp [List.reverse_cons, List.map_append, List.append_assoc]
    have hlen : i + 1 + as.length = i + (a :: as).length := by
      simp
      omega
    rw [hseen, hlen]

theorem hookUniqAux_eq_nil (fn p : String) :
    ∀ (hs : List Hook) (seen : List String) (i : Nat),
      (∀ h ∈ hs, h.name ∉ seen) → (hs.map Hook.name).Nodup →
      hookUniqAux fn p seen i hs = [] := by
  intro hs
  induction hs with
  | nil => intro seen i _ _; rfl
  | cons h hs ih =>
    intro seen i hfresh hnodup
    simp only [List.map_cons, List.nodup_cons] at hnodup
    have hc : seen.contains h.name = false := by
      simp
      exact hfresh h (List.mem_cons_self h hs)
    simp only [hookUniqAux, hc]
    simp only [Bool.false_eq_true, if_false, List.nil_append]
    apply ih (h.name :: seen) (i + 1)
    · intro h2 hh2
      rw [List.mem_cons]
      rintro (hcase | hcase)
      · exact hnodup.1 (hcase ▸ List.mem_map_of_mem Hook.name hh2)
      · exact hfresh h2 (List.mem_cons_of_mem h hh2) hcase
    · exact hnodup.2

theorem contains_eq_false (l : List String) (a : String) :
    l.contains a = false ↔ a ∉ l := by
  simp

theorem contains_eq_true (l : List String) (a : String) :
    l.contains a = true ↔ a ∈ l := by
  simp

theorem mem_rev_names (ws : List Hook) (a : String) :
    a ∈ ws.reverse.map Hook.name ↔ a ∈ ws.map Hook.name := by
  rw [List.map_reverse, List.mem_reverse]

/-- C5: when a frame contains exactly two hooks sharing one name (the
decomposition `xs ++ h1 :: ys ++ h2 :: zs` with all other names
distinct), the HOOK-007 rule produces exactly one diagnostic, reported
at the second occurrence's name path. -/
theorem hook007_single_duplicate (f : Frame) (p : String)
    (xs ys zs : List Hook) (h1 h2 : Hook)
    (hdecomp : f.hooks = xs ++ h1 :: (ys ++ h2 :: zs))
    (hname : h1.name = h2.name)
    (hnodup : ((xs ++ h1 :: (ys ++ zs)).map Hook.name).Nodup) :
    validate_hook_name_uniqueness f p =
      [hook007Diag f.name p (xs.length + 1 + ys.length) h2.name] := by
  rw [List.map_append, List.nodup_append] at hnodup
  obtain ⟨hxs_nodup, hrest_nodup, hdisj_xs⟩ := hnodup
  rw [List.map_cons, List.nodup_cons] at hrest_nodup
  obtain ⟨hh1_notin, hyz_nodup⟩ := hrest_nodup
  rw [List.map_append, List.mem_append] at hh1_notin
  push_neg at hh1_notin
  obtain ⟨h1_not_ys, h1_not_zs⟩ := hh1_notin
  rw [List.map_append, List.nodup_append] at hyz_nodup
  obtain ⟨hys_nodup, hzs_nodup, hdisj_yz⟩ := hyz_nodup
  rw [List.disjoint_left] at hdisj_xs hdisj_yz
  unfold validate_hook_name_uniqueness
  rw [hdecomp, hookUniqAux_append]
  have hxs_nil : hookUniqAux f.name p [] 0 xs = [] := by
    apply hookUniqAux_eq_nil
    · intro h _
      exact List.not_mem_nil h.name
    · exact hxs_nodup
  rw [hxs_nil, List.nil_append, Nat.zero_add, List.append_nil]
  simp only [hookUniqAux]
  have hAf : h1.name ∉ xs.map Hook.name := fun hmem => hdisj_xs hmem (by simp)
  have hc1 : (xs.reverse.map Hook.name).contains h1.name = false :=
    (contains_eq_false _ _).mpr fun hm => hAf ((mem_rev_names xs h1.name).mp hm)
  rw [hc1, if_neg (by simp), List.nil_append, hookUniqAux_append]
  have hys_nil : hookUniqAux f.name p (h1.name :: xs.reverse.map Hook.name)
      (xs.length + 1) ys = [] := by
    apply hookUniqAux_eq_nil
    · intro h hh
      rw [List.mem_cons]
      rintro (hcase | hcase)
      · exact h1_not_ys (hcase ▸ List.mem_map_of_mem Hook.name hh)
      · refine hdisj_xs ((mem_rev_names xs h.name).mp hcase) ?_
        rw [List.map_cons, List.mem_cons, List.map_append, List.mem_append]
        exact Or.inr (Or.inl (List.mem_map_of_mem Hook.name hh))
    · exact hys_nodup
  rw [hys_nil, List.nil_append]
  simp only [hookUniqAux]
  have hc2 : (ys.reverse.map Hook.name ++
      (h1.name :: xs.reverse.map Hook.name)).contains h2.name = true := by
    rw [contains_eq_true, List.mem_append, List.mem_cons]
    exact Or.inr (Or.inl hname.symm)
  rw [hc2, if_pos rfl]
  have hzs_nil : hookUniqAux f.name p
      (h2.name :: (ys.reverse.map Hook.name ++ (h1.name :: xs.reverse.map Hook.name)))
      (xs.length + 1 + ys.length + 1) zs = [] := by
    apply hookUniqAux_eq_nil
    · intro h hh
      simp only [List.mem_cons, List.mem_append]
      rintro (hcase | hcase | hcase | hcase)
      · refine h1_not_zs ?_
        rw [hname]
        exact hcase ▸ List.mem_map_of_mem Hook.name hh
      · exact hdisj_yz ((mem_rev_names ys h.name).mp hcase)
          (List.mem_map_of_mem Hook.name hh)
      · exact h1_not_zs (hcase ▸ List.mem_map_of_mem Hook.name hh)
      · refine hdisj_xs ((mem_rev_names xs h.name).mp hcase) ?_
        rw [List.map_cons, List.mem_cons, List.map_append, List.mem_append]
        exact Or.inr (Or.inr (List.mem_map_of_mem Hook.name hh))
    · exact hzs_nodup
  rw [hzs_nil, List.append_nil]

/-- Witness for C5 at a concrete frame with two identically named
hooks. -/
theorem hook007_single_duplicate_witness :
    validate_hook_name_uniqueness frameDupHooks "frames[0]" =
      [hook007Diag frameDupHooks.name "frames[0]" 1 hookEx.name] :=
  hook007_single_duplicate frameDupHooks "frames[0]" [] [] [] hookEx hookEx rfl rfl
    (by decide)

/-! ## HOOK-W01 weak-hook mismatch (C8) -/

/-- C8 counterexample: with two concepts named genre (first
`is_weak=true`, second `is_weak=false`), a weak-prefixed hook on genre
satisfies the claim's right-hand side (some matching concept has
`is_weak=false`), yet the rule returns no diagnostic, because the
source binds the first matching concept only. -/
theorem warn_weak_hook_mismatch_counterexample :
    strHasPfx hookWeakEx.name "_wk__" = true ∧
      (∃ c ∈ conceptsDupEx, c.name = hookWeakEx.concept ∧ c.is_weak = false) ∧
      warn_weak_hook_mismatch hookWeakEx "frames[0].hooks[0]" conceptsDupEx = [] := by
  decide

/-- C8 amended: the rule warns iff the hook name starts with the weak
prefix and the first concept in the list whose name equals the hook's
concept has `is_weak = false`; in particular no diagnostic when no
matching concept exists, and every diagnostic is a WARN with rule
HOOK-W01 at the hook's path. -/
theorem warn_weak_hook_mismatch_spec (h : Hook) (path : String) (cs : List Concept) :
    (warn_weak_hook_mismatch h path cs ≠ [] ↔
      strHasPfx h.name "_wk__" = true ∧
        ∃ c, cs.find? (fun c => c.name == h.concept) = some c ∧ c.is_weak = false) ∧
      (cs.find? (fun c => c.name == h.concept) = none →
        warn_weak_hook_mismatch h path cs = []) ∧
      ∀ d ∈ warn_weak_hook_mismatch h path cs,
        d.rule_id = "HOOK-W01" ∧ d.severity = Severity.WARN ∧ d.path = path := by
  cases hf : cs.find? (fun c => c.name == h.concept) with
  | none =>
    have he : warn_weak_hook_mismatch h path cs = [] := by
      unfold warn_weak_hook_mismatch
      rw [hf]
    rw [he]
    refine ⟨?_, fun _ => rfl, ?_⟩
    · constructor
      · intro hne
        exact absurd rfl hne
      · rintro ⟨_, c, hc, _⟩
        exact Option.noConfusion hc
    · intro d hd
      exact absurd hd (List.not_mem_nil d)
  | some c =>
    have hsome : warn_weak_hook_mismatch h path cs =
        (if strHasPfx h.name "_wk__" && !c.is_weak then
          [Diagnostic.mk "HOOK-W01" Severity.WARN
            ("Hook " ++ h.name ++ " uses weak prefix but concept " ++ h.concept ++
              " has is_weak=False")
            path "Either set concept is_weak=True or use strong hook prefix"]
        else []) := by
      unfold warn_weak_hook_mismatch
      rw [hf]
    by_cases hw : strHasPfx h.name "_wk__" = true
    · by_cases hwk : c.is_weak = true
      · have he : warn_weak_hook_mismatch h path cs = [] := by
          rw [hsome, hw, hwk]
          rfl
        rw [he]
        refine ⟨?_, fun _ => rfl, ?_⟩
        · constructor
          · intro hne
            exact absurd rfl hne
          · rintro ⟨_, c2, hc2, hwk2⟩
            rw [Option.some_inj] at hc2
            rw [← hc2, hwk] at hwk2
            exact Bool.noConfusion hwk2
        · intro d hd
          exact absurd hd (List.not_mem_nil d)
      · rw [Bool.not_eq_true] at hwk
        have he : warn_weak_hook_mismatch h path cs =
            [Diagnostic.mk "HOOK-W01" Severity.WARN
              ("Hook " ++ h.name ++ " uses weak prefix but concept " ++ h.concept ++
                " has is_weak=False")
              path "Either set concept is_weak=True or use strong hook prefix"] := by
          rw [hsome, hw, hwk]
          rfl
        rw [he]
        refine ⟨?_, ?_, ?_⟩
        · constructor
          · intro _
            exact ⟨hw, c, rfl, hwk⟩
          · intro _
            simp
        · intro hnone
          exact Option.noConfusion hnone
        · intro d hd
          rw [List.mem_singleton] at hd
          subst hd
          exact ⟨rfl, rfl, rfl⟩
    · rw [Bool.not_eq_true] at hw
      have he : warn_weak_hook_mismatch h path cs = [] := by
        rw [hsome, hw]
        rfl
      rw [he]
      refine ⟨?_, fun _ => rfl, ?_⟩
      · constructor
        · intro hne
          exact absurd rfl hne
        · rintro ⟨hw2, _⟩
          rw [hw] at hw2
          exact Bool.noConfusion hw2
      · intro d hd
        exact absurd hd (List.not_mem_nil d)

/-! ## Semver grammar (C7) -/

theorem dropWhile_all_append (p : Char → Bool) (a r : List Char)
    (ha : ∀ x ∈ a, p x = true) : (a ++ r).dropWhile p = r.dropWhile p := by
  induction a with
  | nil => rfl
  | cons c cs ih =>
    rw [List.cons_append, List.dropWhile_cons]
    rw [ha c (List.mem_cons_self c cs)]
    simp only [if_true]
    exact ih fun x hx => ha x (List.mem_cons_of_mem c hx)

theorem all_digits_of_dropWhile_nil {l : List Char}
    (h : l.dropWhile isDigit09 = []) : ∀ x ∈ l, isDigit09 x = true := by
  intro x hx
  have hsplit : l.takeWhile isDigit09 ++ l.dropWhile isDigit09 = l :=
    List.takeWhile_append_dropWhile isDigit09 l
  rw [h, List.append_nil] at hsplit
  rw [← hsplit] at hx
  exact List.mem_takeWhile_imp hx

theorem takeWhile_digits_ne_nil {l : List Char} (h : hasDigit1 l = true) :
    l.takeWhile isDigit09 ≠ [] := by
  cases l with
  | nil => exact absurd h (by decide)
  | cons x xs =>
    simp only [hasDigit1] at h
    rw [List.takeWhile_cons, h]
    simp

theorem hasDigit1_append_of_head {a r : List Char} (hne : a ≠ [])
    (ha : ∀ x ∈ a, isDigit09 x = true) : hasDigit1 (a ++ r) = true := by
  cases a with
  | nil => exact absurd rfl hne
  | cons x xs =>
    rw [List.cons_append]
    unfold hasDigit1
    exact ha x (List.mem_cons_self x xs)

theorem semverTail_iff (l : List Char) : semverTail l = true ↔ SemverSpec l := by
  constructor
  · intro h
    unfold semverTail at h
    rw [Bool.and_eq_true] at h
    obtain ⟨h1, hrest⟩ := h
    split at hrest
    case _ r1 heq1 =>
      rw [Bool.and_eq_true] at hrest
      obtain ⟨h2, hrest2⟩ := hrest
      split at hrest2
      case _ r2 heq2 =>
        rw [Bool.and_eq_true] at hrest2
        obtain ⟨h3, h4⟩ := hrest2
        refine ⟨l.takeWhile isDigit09, r1.takeWhile isDigit09, r2,
          takeWhile_digits_ne_nil h1, takeWhile_digits_ne_nil h2, ?_,
          fun x hx => List.mem_takeWhile_imp hx,
          fun x hx => List.mem_takeWhile_imp hx, ?_, ?_⟩
        · intro hc
          rw [hc] at h3
          exact absurd h3 (by decide)
        · rw [List.isEmpty_iff] at h4
          exact all_digits_of_dropWhile_nil h4
        · unfold dropDigits at heq1 heq2
          conv_lhs => rw [← List.takeWhile_append_dropWhile isDigit09 l]
          rw [heq1]
          conv_lhs => rw [← List.takeWhile_append_dropWhile isDigit09 r1]
          rw [heq2]
      case _ hne =>
        exact absurd hrest2 (by simp)
    case _ hne =>
      exact absurd hrest (by simp)
  · rintro ⟨a, b, c, hane, hbne, hcne, had, hbd, hcd, rfl⟩
    have hd1 : dropDigits (a ++ ('.' :: (b ++ ('.' :: c)))) = '.' :: (b ++ ('.' :: c)) := by
      unfold dropDigits
      rw [dropWhile_all_append isDigit09 a _ had, List.dropWhile_cons]
      simp only [show isDigit09 '.' = false by decide]
      simp
    have hd2 : dropDigits (b ++ ('.' :: c)) = '.' :: c := by
      unfold dropDigits
      rw [dropWhile_all_append isDigit09 b _ hbd, List.dropWhile_cons]
      simp only [show isDigit09 '.' = false by decide]
      simp
    have hd3 : dropDigits c = [] := by
      unfold dropDigits
      rw [show c = c ++ [] by simp, dropWhile_all_append isDigit09 c _ hcd]
      rfl
    unfold semverTail
    rw [hd1]
    show (hasDigit1 (a ++ ('.' :: (b ++ ('.' :: c)))) &&
      (hasDigit1 (b ++ ('.' :: c)) &&
        (match dropDigits (b ++ ('.' :: c)) with
         | '.' :: r2 => hasDigit1 r2 && (dropDigits r2).isEmpty
         | _ => false))) = true
    rw [hd2]
    show (hasDigit1 (a ++ ('.' :: (b ++ ('.' :: c)))) &&
      (hasDigit1 (b ++ ('.' :: c)) && (hasDigit1 c && (dropDigits c).isEmpty))) = true
    rw [hd3, hasDigit1_append_of_head hane had, hasDigit1_append_of_head hbne hbd]
    cases c with
    | nil => exact absurd rfl hcne
    | cons x xs =>
      have : hasDigit1 (x :: xs) = true := hcd x (List.mem_cons_self x xs)
      rw [this]
      rfl

/-- C7 counterexample: Python `$` also matches just before one final
newline, so `is_valid_semver "1.0.0\n"` is true although the string
does not consist of exactly three dot-separated integer components
with no trailing characters. -/
theorem is_valid_semver_counterexample :
    is_valid_semver "1.0.0\n" = true ∧ ¬ SemverSpec "1.0.0\n".toList := by
  constructor
  · decide
  · rintro ⟨a, b, c, _, _, _, had, hbd, hcd, hl⟩
    have hmem : '\n' ∈ a ++ ('.' :: (b ++ ('.' :: c))) := by
      rw [← hl]
      decide
    simp only [List.mem_append, List.mem_cons] at hmem
    rcases hmem with h | h | h | h | h
    · exact absurd (had _ h) (by decide)
    · exact absurd h (by decide)
    · exact absurd (hbd _ h) (by decide)
    · exact absurd h (by decide)
    · exact absurd (hcd _ h) (by decide)

/-- C7 amended: `is_valid_semver s` is true iff `s`, after removing
the at most one trailing newline that Python's un-flagged `$` anchor
tolerates, consists of exactly three non-negative integer components
separated by single dots: no `v` prefix, no pre-release/build suffix,
and no other leading or trailing characters. -/
theorem is_valid_semver_spec (s : String) :
    is_valid_semver s = true ↔ SemverSpec (dropFinalNl s.toList) := by
  unfold is_valid_semver
  exact semverTail_iff (dropFinalNl s.toList)

/-! ## Hook-name grammar (C3) -/

theorem isLowAl_of_isLowerAZ {c : Char} (h : isLowerAZ c = true) : isLowAl c = true := by
  unfold isLowAl
  rw [h]
  rfl

theorem ne_us_of_isLowAl {c : Char} (h : isLowAl c = true) : c ≠ '_' := by
  intro hc
  rw [hc] at h
  exact absurd h (by decide)

theorem ne_us_of_isLowerAZ {c : Char} (h : isLowerAZ c = true) : c ≠ '_' := by
  intro hc
  rw [hc] at h
  exact absurd h (by decide)

theorem coreAux_underscore (c : Char) (rest : List Char) :
    coreAux ('_' :: c :: rest) = (isLowAl c && coreAux rest) := rfl

theorem coreAux_cons_of_ne {c : Char} (hne : c ≠ '_') (rest : List Char) :
    coreAux (c :: rest) = (isLowAl c && coreAux rest) := by
  conv_lhs => unfold coreAux
  rw [if_neg hne]

theorem coreAux_skip_alnum (rn t : List Char) (hrn : ∀ x ∈ rn, isLowAl x = true) :
    coreAux (rn ++ t) = coreAux t := by
  induction rn with
  | nil => rfl
  | cons c cs ih =>
    rw [List.cons_append,
      coreAux_cons_of_ne (ne_us_of_isLowAl (hrn c (List.mem_cons_self c cs))),
      hrn c (List.mem_cons_self c cs), Bool.true_and]
    exact ih fun x hx => hrn x (List.mem_cons_of_mem c hx)

theorem coreAux_of_spec (groups : List (List Char)) :
    ∀ rn : List Char, (∀ x ∈ rn, isLowAl x = true) →
      (∀ g ∈ groups, ∃ (d : Char) (ds : List Char),
        g = '_' :: d :: ds ∧ ∀ x ∈ d :: ds, isLowAl x = true) →
      coreAux (rn ++ groups.flatten) = true := by
  induction groups with
  | nil =>
    intro rn hrn _
    rw [List.flatten_nil, coreAux_skip_alnum rn [] hrn]
    rfl
  | cons g gs ih =>
    intro rn hrn hg
    obtain ⟨d, ds, rfl, hds⟩ := hg g (List.mem_cons_self g gs)
    rw [List.flatten_cons, coreAux_skip_alnum rn _ hrn, List.cons_append,
      List.cons_append, coreAux_underscore, hds d (List.mem_cons_self d ds),
      Bool.true_and]
    exact ih ds (fun x hx => hds x (List.mem_cons_of_mem d hx))
      fun g2 hg2 => hg g2 (List.mem_cons_of_mem _ hg2)

theorem spec_of_coreAux_aux : ∀ (n : Nat) (l : List Char), l.length ≤ n →
    coreAux l = true →
    ∃ (rn : List Char) (groups : List (List Char)),
      l = rn ++ groups.flatten ∧ (∀ x ∈ rn, isLowAl x = true) ∧
        ∀ g ∈ groups, ∃ (d : Char) (ds : List Char),
          g = '_' :: d :: ds ∧ ∀ x ∈ d :: ds, isLowAl x = true := by
  intro n
  induction n with
  | zero =>
    intro l hl _
    rw [Nat.le_zero, List.length_eq_zero] at hl
    subst hl
    exact ⟨[], [], rfl, by simp, by simp⟩
  | succ n ih =>
    intro l hl h
    cases l with
    | nil => exact ⟨[], [], rfl, by simp, by simp⟩
    | cons c rest =>
      by_cases hc : c = '_'
      · subst hc
        cases rest with
        | nil => exact absurd h (by decide)
        | cons d rest2 =>
          rw [coreAux_underscore, Bool.and_eq_true] at h
          obtain ⟨hd, h2⟩ := h
          obtain ⟨rn2, groups2, heq, hrn2, hg2⟩ :=
            ih rest2 (by simp at hl ⊢; omega) h2
          refine ⟨[], ('_' :: d :: rn2) :: groups2, ?_, by simp, ?_⟩
          · rw [List.nil_append, List.flatten_cons, heq]
            simp
          · intro g hg
            rcases List.mem_cons.mp hg with rfl | hgmem
            · refine ⟨d, rn2, rfl, ?_⟩
              intro x hx
              rcases List.mem_cons.mp hx with rfl | hx2
              · exact hd
              · exact hrn2 x hx2
            · exact hg2 g hgmem
      · rw [coreAux_cons_of_ne hc, Bool.and_eq_true] at h
        obtain ⟨hcal, h2⟩ := h
        obtain ⟨rn2, groups2, heq, hrn2, hg2⟩ := ih rest (by simp at hl; omega) h2
        refine ⟨c :: rn2, groups2, ?_, ?_, hg2⟩
        · rw [heq]
          simp
        · intro x hx
          rcases List.mem_cons.mp hx with rfl | hx2
          · exact hcal
          · exact hrn2 x hx2

theorem matchSeg_iff (l : List Char) : matchSeg l = true ↔ SegSpec l := by
  constructor
  · intro h
    cases l with
    | nil => exact absurd h (by decide)
    | cons c rest =>
      simp only [matchSeg, Bool.and_eq_true] at h
      obtain ⟨hc, hrest⟩ := h
      obtain ⟨rn, groups, heq, hrn, hg⟩ :=
        spec_of_coreAux_aux rest.length rest (le_refl _) hrest
      exact ⟨c, rn, groups, by rw [heq], hc, hrn, hg⟩
  · rintro ⟨c, rn, groups, rfl, hc, hrn, hg⟩
    simp only [matchSeg, Bool.and_eq_true]
    exact ⟨hc, coreAux_of_spec groups rn hrn hg⟩

theorem coreAux_of_matchSeg {l : List Char} (h : matchSeg l = true) :
    coreAux l = true := by
  cases l with
  | nil => exact absurd h (by decide)
  | cons c rest =>
    simp only [matchSeg, Bool.and_eq_true] at h
    rw [coreAux_cons_of_ne (ne_us_of_isLowerAZ h.1), isLowAl_of_isLowerAZ h.1,
      Bool.true_and]
    exact h.2

theorem split2us_hit (rest : List Char) :
    splitFirst2us ('_' :: '_' :: rest) = some ([], rest) := by
  unfold splitFirst2us
  rw [if_pos ⟨rfl, rfl⟩]
  rfl

theorem split2us_miss {c : Char} {rest : List Char}
    (h : ¬(c = '_' ∧ rest.head? = some '_')) :
    splitFirst2us (c :: rest) =
      match splitFirst2us rest with
      | none => none
      | some (a, b) => some (c :: a, b) := by
  conv_lhs => unfold splitFirst2us
  rw [if_neg h]

theorem split2us_some_aux : ∀ (n : Nat) (l a b : List Char), l.length ≤ n →
    splitFirst2us l = some (a, b) → l = a ++ '_' :: '_' :: b := by
  intro n
  induction n with
  | zero =>
    intro l a b hl h
    rw [Nat.le_zero, List.length_eq_zero] at hl
    subst hl
    exact absurd h (by simp [splitFirst2us])
  | succ n ih =>
    intro l a b hl h
    cases l with
    | nil => exact absurd h (by simp [splitFirst2us])
    | cons c rest =>
      by_cases hcond : c = '_' ∧ rest.head? = some '_'
      · obtain ⟨rfl, hh⟩ := hcond
        cases rest with
        | nil => exact absurd hh (by simp)
        | cons d rest2 =>
          rw [List.head?_cons, Option.some_inj] at hh
          subst hh
          rw [split2us_hit, Option.some_inj] at h
          cases h
          rfl
      · rw [split2us_miss hcond] at h
        cases hsr : splitFirst2us rest with
        | none =>
          rw [hsr] at h
          simp at h
        | some ab =>
          obtain ⟨a2, b2⟩ := ab
          rw [hsr] at h
          have hp : c :: a2 = a ∧ b2 = b := by simpa using h
          obtain ⟨hp1, hp2⟩ := hp
          subst hp1
          subst hp2
          have hrec := ih rest a2 b2 (by simp at hl; omega) hsr
          rw [List.cons_append, hrec]

theorem split2us_none_of_coreAux : ∀ (n : Nat) (l : List Char), l.length ≤ n →
    coreAux l = true → splitFirst2us l = none := by
  intro n
  induction n with
  | zero =>
    intro l hl _
    rw [Nat.le_zero, List.length_eq_zero] at hl
    subst hl
    rfl
  | succ n ih =>
    intro l hl h
    cases l with
    | nil => rfl
    | cons c rest =>
      by_cases hc : c = '_'
      · subst hc
        cases rest with
        | nil => exact absurd h (by decide)
        | cons d rest2 =>
          rw [coreAux_underscore, Bool.and_eq_true] at h
          obtain ⟨hd, h2⟩ := h
          have hdne : d ≠ '_' := ne_us_of_isLowAl hd
          have hcore : coreAux (d :: rest2) = true := by
            rw [coreAux_cons_of_ne hdne, hd, Bool.true_and]
            exact h2
          have hrest : splitFirst2us (d :: rest2) = none :=
            ih (d :: rest2) (by simp at hl ⊢; omega) hcore
          rw [split2us_miss ?_, hrest]
          · rintro ⟨_, hh⟩
            rw [List.head?_cons, Option.some_inj] at hh
            exact hdne hh
      · rw [coreAux_cons_of_ne hc, Bool.and_eq_true] at h
        obtain ⟨_, h2⟩ := h
        have hrest : splitFirst2us rest = none := ih rest (by simp at hl; omega) h2
        rw [split2us_miss fun hcond2 => hc hcond2.1, hrest]

theorem split2us_seg_append : ∀ (n : Nat) (l q : List Char), l.length ≤ n →
    coreAux l = true →
    splitFirst2us (l ++ '_' :: '_' :: q) = some (l, q) := by
  intro n
  induction n with
  | zero =>
    intro l q hl _
    rw [Nat.le_zero, List.length_eq_zero] at hl
    subst hl
    exact split2us_hit q
  | succ n ih =>
    intro l q hl h
    cases l with
    | nil => exact split2us_hit q
    | cons c rest =>
      by_cases hc : c = '_'
      · subst hc
        cases rest with
        | nil => exact absurd h (by decide)
        | cons d rest2 =>
          rw [coreAux_underscore, Bool.and_eq_true] at h
          obtain ⟨hd, h2⟩ := h
          have hdne : d ≠ '_' := ne_us_of_isLowAl hd
          have hcore : coreAux (d :: rest2) = true := by
            rw [coreAux_cons_of_ne hdne, hd, Bool.true_and]
            exact h2
          have hrest : splitFirst2us ((d :: rest2) ++ '_' :: '_' :: q) =
              some (d :: rest2, q) :=
            ih (d :: rest2) q (by simp at hl ⊢; omega) hcore
          rw [List.cons_append, split2us_miss ?_]
          · rw [hrest]
          · rintro ⟨_, hh⟩
            rw [List.cons_append, List.head?_cons, Option.some_inj] at hh
            exact hdne hh
      · rw [coreAux_cons_of_ne hc, Bool.and_eq_true] at h
        obtain ⟨_, h2⟩ := h
        have hrest : splitFirst2us (rest ++ '_' :: '_' :: q) = some (rest, q) :=
          ih rest q (by simp at hl; omega) h2
        rw [List.cons_append, split2us_miss fun hcond2 => hc hcond2.1, hrest]

theorem matchHookBody_iff (l : List Char) :
    matchHookBody l = true ↔
      (SegSpec l ∨ ∃ cs qs, l = cs ++ '_' :: '_' :: qs ∧ SegSpec cs ∧ SegSpec qs) := by
  constructor
  · intro h
    unfold matchHookBody at h
    split at h
    · exact Or.inl ((matchSeg_iff l).mp h)
    case _ a b heq =>
      rw [Bool.and_eq_true] at h
      exact Or.inr ⟨a, b, split2us_some_aux l.length l a b (le_refl _) heq,
        (matchSeg_iff a).mp h.1, (matchSeg_iff b).mp h.2⟩
  · rintro (hseg | ⟨cs, qs, rfl, hcs, hqs⟩)
    · have hm : matchSeg l = true := (matchSeg_iff l).mpr hseg
      have hnone : splitFirst2us l = none :=
        split2us_none_of_coreAux l.length l (le_refl _) (coreAux_of_matchSeg hm)
      unfold matchHookBody
      rw [hnone]
      exact hm
    · have hsplit : splitFirst2us (cs ++ '_' :: '_' :: qs) = some (cs, qs) :=
        split2us_seg_append cs.length cs qs (le_refl _)
          (coreAux_of_matchSeg ((matchSeg_iff cs).mpr hcs))
      unfold matchHookBody
      rw [hsplit]
      show (matchSeg cs && matchSeg qs) = true
      rw [(matchSeg_iff cs).mpr hcs, (matchSeg_iff qs).mpr hqs]
      rfl

theorem hk_toList : ("_hk__" : String).toList = ['_', 'h', 'k', '_', '_'] := by decide

theorem wk_toList : ("_wk__" : String).toList = ['_', 'w', 'k', '_', '_'] := by decide

theorem hookNameTail_iff (l : List Char) : hookNameTail l = true ↔ HookNameSpec l := by
  constructor
  · intro h
    unfold hookNameTail at h
    split at h
    case _ p1 p2 rest =>
      rw [Bool.and_eq_true, Bool.and_eq_true, Bool.or_eq_true, beq_iff_eq,
        beq_iff_eq, beq_iff_eq] at h
      obtain ⟨⟨hp1, hp2⟩, hbody⟩ := h
      subst hp2
      rcases (matchHookBody_iff rest).mp hbody with hseg | ⟨cs, qs, rfl, hcs, hqs⟩
      · rcases hp1 with rfl | rfl
        · exact ⟨"_hk__", rest, none, Or.inl rfl, hseg, by rw [hk_toList]; rfl⟩
        · exact ⟨"_wk__", rest, none, Or.inr rfl, hseg, by rw [wk_toList]; rfl⟩
      · rcases hp1 with rfl | rfl
        · refine ⟨"_hk__", cs, some qs, Or.inl rfl, hcs, hqs, ?_⟩
          rw [hk_toList]
          simp
        · refine ⟨"_wk__", cs, some qs, Or.inr rfl, hcs, hqs, ?_⟩
          rw [wk_toList]
          simp
    case _ =>
      exact absurd h Bool.false_ne_true
  · rintro ⟨p, c, q, hp, hc, hrest⟩
    cases q with
    | none =>
      rw [show (match (none : Option (List Char)) with
            | none => l = p.toList ++ c
            | some qs => SegSpec qs ∧ l = p.toList ++ (c ++ ('_' :: '_' :: qs)))
          = (l = p.toList ++ c) from rfl] at hrest
      subst hrest
      rcases hp with rfl | rfl
      · rw [hk_toList]
        show hookNameTail ('_' :: 'h' :: 'k' :: '_' :: '_' :: c) = true
        show ((('h' == 'h' || 'h' == 'w') && 'k' == 'k') && matchHookBody c) = true
        rw [(matchHookBody_iff c).mpr (Or.inl hc)]
        rfl
      · rw [wk_toList]
        show hookNameTail ('_' :: 'w' :: 'k' :: '_' :: '_' :: c) = true
        show ((('w' == 'h' || 'w' == 'w') && 'k' == 'k') && matchHookBody c) = true
        rw [(matchHookBody_iff c).mpr (Or.inl hc)]
        rfl
    | some qs =>
      obtain ⟨hqs, hleq⟩ := hrest
      subst hleq
      rcases hp with rfl | rfl
      · rw [hk_toList]
        show hookNameTail ('_' :: 'h' :: 'k' :: '_' :: '_' :: (c ++ '_' :: '_' :: qs)) = true
        show ((('h' == 'h' || 'h' == 'w') && 'k' == 'k') &&
          matchHookBody (c ++ '_' :: '_' :: qs)) = true
        rw [(matchHookBody_iff _).mpr (Or.inr ⟨c, qs, rfl, hc, hqs⟩)]
        rfl
      · rw [wk_toList]
        show hookNameTail ('_' :: 'w' :: 'k' :: '_' :: '_' :: (c ++ '_' :: '_' :: qs)) = true
        show ((('w' == 'h' || 'w' == 'w') && 'k' == 'k') &&
          matchHookBody (c ++ '_' :: '_' :: qs)) = true
        rw [(matchHookBody_iff _).mpr (Or.inr ⟨c, qs, rfl, hc, hqs⟩)]
        rfl

theorem segSpec_chars {l : List Char} (h : SegSpec l) :
    ∀ x ∈ l, isLowAl x = true ∨ x = '_' := by
  obtain ⟨c, rn, groups, rfl, hc, hrn, hg⟩ := h
  intro x hx
  rw [List.mem_cons] at hx
  rcases hx with rfl | hx
  · exact Or.inl (isLowAl_of_isLowerAZ hc)
  · rw [List.mem_append] at hx
    rcases hx with hx | hx
    · exact Or.inl (hrn x hx)
    · rw [List.mem_flatten] at hx
      obtain ⟨g, hgmem, hxg⟩ := hx
      obtain ⟨d, ds, rfl, hds⟩ := hg g hgmem
      rw [List.mem_cons] at hxg
      rcases hxg with rfl | hxg
      · exact Or.inr rfl
      · exact Or.inl (hds x hxg)

theorem hookNameSpec_chars {l : List Char} (h : HookNameSpec l) :
    ∀ x ∈ l, isLowAl x = true ∨ x = '_' := by
  obtain ⟨p, c, q, hp, hc, hrest⟩ := h
  have hpfx : ∀ x ∈ p.toList, isLowAl x = true ∨ x = '_' := by
    rcases hp with rfl | rfl
    · rw [hk_toList]
      intro x hx
      simp only [List.mem_cons, List.not_mem_nil, or_false] at hx
      rcases hx with rfl | rfl | rfl | rfl | rfl
      · exact Or.inr rfl
      · exact Or.inl (by decide)
      · exact Or.inl (by decide)
      · exact Or.inr rfl
      · exact Or.inr rfl
    · rw [wk_toList]
      intro x hx
      simp only [List.mem_cons, List.not_mem_nil, or_false] at hx
      rcases hx with rfl | rfl | rfl | rfl | rfl
      · exact Or.inr rfl
      · exact Or.inl (by decide)
      · exact Or.inl (by decide)
      · exact Or.inr rfl
      · exact Or.inr rfl
  intro x hx
  cases q with
  | none =>
    rw [show (match (none : Option (List Char)) with
          | none => l = p.toList ++ c
          | some qs => SegSpec qs ∧ l = p.toList ++ (c ++ ('_' :: '_' :: qs)))
        = (l = p.toList ++ c) from rfl] at hrest
    rw [hrest, List.mem_append] at hx
    rcases hx with hx | hx
    · exact hpfx x hx
    · exact segSpec_chars hc x hx
  | some qs =>
    obtain ⟨hqs, hleq⟩ := hrest
    rw [hleq, List.mem_append, List.mem_append, List.mem_cons, List.mem_cons] at hx
    rcases hx with hx | hx | rfl | rfl | hx
    · exact hpfx x hx
    · exact segSpec_chars hc x hx
    · exact Or.inr rfl
    · exact Or.inr rfl
    · exact segSpec_chars hqs x hx

/-- C3 counterexample: Python `$` also matches just before one final
newline, so `is_valid_hook_name "_hk__customer\n"` is true although
the string does not decompose into a prefix and segments (a segment
cannot contain a newline). -/
theorem is_valid_hook_name_counterexample :
    is_valid_hook_name "_hk__customer\n" = true ∧
      ¬ HookNameSpec "_hk__customer\n".toList := by
  constructor
  · decide
  · intro h
    have hnl : '\n' ∈ "_hk__customer\n".toList := by decide
    rcases hookNameSpec_chars h '\n' hnl with hx | hx
    · exact absurd hx (by decide)
    · exact absurd hx (by decide)

/-- C3 amended: `is_valid_hook_name s` is true iff `s`, after removing
the at most one trailing newline that Python's un-flagged `$` anchor
tolerates, decomposes as a prefix `_hk__` or `_wk__`, a concept
segment, optionally followed by `__` and a qualifier segment, where
each segment matches `[a-z][a-z0-9]*(_[a-z0-9]+)*`. -/
theorem is_valid_hook_name_spec (s : String) :
    is_valid_hook_name s = true ↔ HookNameSpec (dropFinalNl s.toList) := by
  unfold is_valid_hook_name
  exact hookNameTail_iff (dropFinalNl s.toList)

/-! ## Rule-identifier lemmas (for C9 and C10) -/

theorem ids_manifest_version (m : Manifest) :
    ∀ d ∈ validate_manifest_version m, d.rule_id = "MANIFEST-001" := by
  intro d hd
  unfold validate_manifest_version at hd
  split at hd
  · exact absurd hd (List.not_mem_nil d)
  · rw [List.mem_singleton] at hd
    subst hd
    rfl

theorem ids_schema_version (m : Manifest) :
    ∀ d ∈ validate_schema_version m, d.rule_id = "MANIFEST-002" := by
  intro d hd
  unfold validate_schema_version at hd
  split at hd
  · exact absurd hd (List.not_mem_nil d)
  · rw [List.mem_singleton] at hd
    subst hd
    rfl

theorem ids_frame_has_hooks (f : Frame) (p : String) :
    ∀ d ∈ validate_frame_has_hooks f p, d.rule_id = "FRAME-001" := by
  intro d hd
  unfold validate_frame_has_hooks at hd
  split at hd
  · rw [List.mem_singleton] at hd
    subst hd
    rfl
  · exact absurd hd (List.not_mem_nil d)

theorem ids_frame_name (f : Frame) (p : String) :
    ∀ d ∈ validate_frame_name f p, d.rule_id = "FRAME-002" := by
  intro d hd
  unfold validate_frame_name at hd
  split at hd
  · exact absurd hd (List.not_mem_nil d)
  · rw [List.mem_singleton] at hd
    subst hd
    rfl

theorem ids_frame_primary (f : Frame) (p : String) :
    ∀ d ∈ validate_frame_has_primary_hook f p, d.rule_id = "FRAME-003" := by
  intro d hd
  unfold validate_frame_has_primary_hook at hd
  split at hd
  · exact absurd hd (List.not_mem_nil d)
  · rw [List.mem_singleton] at hd
    subst hd
    rfl

theorem ids_frame_source_present (f : Frame) (p : String) :
    ∀ d ∈ validate_frame_source_present f p, d.rule_id = "FRAME-004" := by
  intro d hd
  unfold validate_frame_source_present at hd
  split at hd
  · rw [List.mem_singleton] at hd
    subst hd
    rfl
  · exact absurd hd (List.not_mem_nil d)

theorem ids_frame_source_exclusivity (f : Frame) (p : String) :
    ∀ d ∈ validate_frame_source_exclusivity f p, d.rule_id = "FRAME-005" := by
  intro d hd
  unfold validate_frame_source_exclusivity at hd
  split at hd
  · exact absurd hd (List.not_mem_nil d)
  · split at hd
    · rw [List.mem_singleton] at hd
      subst hd
      rfl
    · split at hd
      · rw [List.mem_singleton] at hd
        subst hd
        rfl
      · exact absurd hd (List.not_mem_nil d)

theorem ids_frame_source_nonempty (f : Frame) (p : String) :
    ∀ d ∈ validate_frame_source_nonempty f p, d.rule_id = "FRAME-006" := by
  intro d hd
  unfold validate_frame_source_nonempty at hd
  split at hd
  · exact absurd hd (List.not_mem_nil d)
  · rw [List.mem_append] at hd
    rcases hd with hd | hd
    · split at hd
      · split at hd
        · rw [List.mem_singleton] at hd
          subst hd
          rfl
        · exact absurd hd (List.not_mem_nil d)
      · exact absurd hd (List.not_mem_nil d)
    · split at hd
      · split at hd
        · rw [List.mem_singleton] at hd
          subst hd
          rfl
        · exact absurd hd (List.not_mem_nil d)
      · exact absurd hd (List.not_mem_nil d)

theorem ids_hook_required (h : Hook) (p : String) :
    ∀ d ∈ validate_hook_required_fields h p, d.rule_id = "HOOK-001" := by
  intro d hd
  unfold validate_hook_required_fields at hd
  split at hd
  · exact absurd hd (List.not_mem_nil d)
  · rw [List.mem_singleton] at hd
    subst hd
    rfl

theorem ids_hook_name (h : Hook) (p : String) (st : Settings) :
    ∀ d ∈ validate_hook_name h p st, d.rule_id = "HOOK-002" := by
  intro d hd
  unfold validate_hook_name at hd
  split at hd
  · exact absurd hd (List.not_mem_nil d)
  · rw [List.mem_singleton] at hd
    subst hd
    rfl

theorem ids_hook_concept (h : Hook) (p : String) :
    ∀ d ∈ validate_hook_concept h p, d.rule_id = "HOOK-004" := by
  intro d hd
  unfold validate_hook_concept at hd
  rw [List.mem_append] at hd
  rcases hd with hd | hd
  · split at hd
    · rw [List.mem_singleton] at hd
      subst hd
      rfl
    · exact absurd hd (List.not_mem_nil d)
  · split at hd
    · split at hd
      · rw [List.mem_singleton] at hd
        subst hd
        rfl
      · exact absurd hd (List.not_mem_nil d)
    · exact absurd hd (List.not_mem_nil d)

theorem ids_hook_source (h : Hook) (p : String) :
    ∀ d ∈ validate_hook_source h p, d.rule_id = "HOOK-005" := by
  intro d hd
  unfold validate_hook_source at hd
  rw [List.mem_append] at hd
  rcases hd with hd | hd
  · split at hd
    · rw [List.mem_singleton] at hd
      subst hd
      rfl
    · exact absurd hd (List.not_mem_nil d)
  · split at hd
    · split at hd
      · rw [List.mem_singleton] at hd
        subst hd
        rfl
      · exact absurd hd (List.not_mem_nil d)
    · exact absurd hd (List.not_mem_nil d)

theorem ids_validate_expr (e p : String) :
    ∀ d ∈ validate_expr e p, d.rule_id = "HOOK-006" := by
  intro d hd
  unfold validate_expr at hd
  split at hd
  · rw [List.mem_singleton] at hd
    subst hd
    rfl
  · split at hd
    · rw [List.mem_singleton] at hd
      subst hd
      rfl
    · exact absurd hd (List.not_mem_nil d)

theorem ids_hookUniqAux (fn p : String) (hs : List Hook) :
    ∀ (seen : List String) (i : Nat) (d : Diagnostic),
      d ∈ hookUniqAux fn p seen i hs → d.rule_id = "HOOK-007" := by
  induction hs with
  | nil =>
    intro seen i d hd
    exact absurd hd (List.not_mem_nil d)
  | cons h hs ih =>
    intro seen i d hd
    unfold hookUniqAux at hd
    rw [List.mem_append] at hd
    rcases hd with hd | hd
    · split at hd
      · rw [List.mem_singleton] at hd
        subst hd
        rfl
      · exact absurd hd (List.not_mem_nil d)
    · exact ih (h.name :: seen) (i + 1) d hd

theorem ids_concept_in_frames (c : Concept) (p : String) (m : Manifest) :
    ∀ d ∈ validate_concept_in_frames c p m, d.rule_id = "CONCEPT-001" := by
  intro d hd
  unfold validate_concept_in_frames at hd
  split at hd
  · exact absurd hd (List.not_mem_nil d)
  · rw [List.mem_singleton] at hd
    subst hd
    rfl

theorem ids_conceptDupAux (cs : List Concept) :
    ∀ (seen : List (String × Nat)) (i : Nat) (d : Diagnostic),
      d ∈ conceptDupAux seen i cs → d.rule_id = "CONCEPT-003" := by
  induction cs with
  | nil =>
    intro seen i d hd
    exact absurd hd (List.not_mem_nil d)
  | cons c cs ih =>
    intro seen i d hd
    unfold conceptDupAux at hd
    split at hd
    · rw [List.mem_cons] at hd
      rcases hd with rfl | hd
      · rfl
      · exact ih seen (i + 1) d hd
    · exact ih ((c.name, i) :: seen) (i + 1) d hd

theorem ids_concept_count (m : Manifest) :
    ∀ d ∈ warn_concept_count m, d.rule_id = "CONCEPT-W01" := by
  intro d hd
  unfold warn_concept_count at hd
  split at hd
  · rw [List.mem_singleton] at hd
    subst hd
    rfl
  · exact absurd hd (List.not_mem_nil d)

theorem ids_weak_hook (h : Hook) (p : String) (cs : List Concept) :
    ∀ d ∈ warn_weak_hook_mismatch h p cs, d.rule_id = "HOOK-W01" := by
  intro d hd
  unfold warn_weak_hook_mismatch at hd
  split at hd
  · split at hd
    · rw [List.mem_singleton] at hd
      subst hd
      rfl
    · exact absurd hd (List.not_mem_nil d)
  · exact absurd hd (List.not_mem_nil d)

theorem ids_duplicate_source (m : Manifest) :
    ∀ d ∈ warn_duplicate_source m, d.rule_id = "FRAME-W02" := by
  intro d hd
  simp only [warn_duplicate_source, List.mem_filterMap] at hd
  obtain ⟨kv, _, heq⟩ := hd
  split at heq
  · rw [Option.some_inj] at heq
    subst heq
    rfl
  · exact Option.noConfusion heq

theorem ids_too_many_hooks (f : Frame) (p : String) :
    ∀ d ∈ warn_too_many_hooks f p, d.rule_id = "FRAME-W03" := by
  intro d hd
  unfold warn_too_many_hooks at hd
  split at hd
  · rw [List.mem_singleton] at hd
    subst hd
    rfl
  · exact absurd hd (List.not_mem_nil d)

theorem ids_too_many_frames (m : Manifest) :
    ∀ d ∈ warn_too_many_frames m, d.rule_id = "MANIFEST-W01" := by
  intro d hd
  unfold warn_too_many_frames at hd
  split at hd
  · rw [List.mem_singleton] at hd
    subst hd
    rfl
  · exact absurd hd (List.not_mem_nil d)

theorem ids_unknown_fields (keys : List String) :
    ∀ d ∈ warn_unknown_fields keys, d.rule_id = "MANIFEST-W02" := by
  intro d hd
  simp only [warn_unknown_fields, List.mem_map] at hd
  obtain ⟨k, _, heq⟩ := hd
  rw [← heq]

theorem hookDiags_cases (st : Settings) (iw : Bool) (cs : List Concept)
    (hp : String) (h : Hook) :
    ∀ d ∈ hookDiags st iw cs hp h,
      d.rule_id ∈
        ["HOOK-001", "HOOK-002", "HOOK-004", "HOOK-005", "HOOK-006", "HOOK-W01"] := by
  intro d hd
  unfold hookDiags at hd
  simp only [List.mem_append] at hd
  rcases hd with ((((((hd | hd) | hd) | hd) | hd) | hd) | hd)
  · rw [ids_hook_required h hp d hd]
    decide
  · rw [ids_hook_name h hp st d hd]
    decide
  · exact absurd hd (List.not_mem_nil d)
  · rw [ids_hook_concept h hp d hd]
    decide
  · rw [ids_hook_source h hp d hd]
    decide
  · rw [ids_validate_expr h.expr (hp ++ ".expr") d hd]
    decide
  · split at hd
    · rw [ids_weak_hook h hp cs d hd]
      decide
    · exact absurd hd (List.not_mem_nil d)

theorem hooksDiags_cases (st : Settings) (iw : Bool) (cs : List Concept)
    (fp : String) (hs : List Hook) :
    ∀ (j : Nat) (d : Diagnostic), d ∈ hooksDiags st iw cs fp j hs →
      d.rule_id ∈
        ["HOOK-001", "HOOK-002", "HOOK-004", "HOOK-005", "HOOK-006", "HOOK-W01"] := by
  induction hs with
  | nil =>
    intro j d hd
    exact absurd hd (List.not_mem_nil d)
  | cons h hs ih =>
    intro j d hd
    unfold hooksDiags at hd
    rw [List.mem_append] at hd
    rcases hd with hd | hd
    · exact hookDiags_cases st iw cs _ h d hd
    · exact ih (j + 1) d hd

theorem frameDiags_cases (st : Settings) (iw : Bool) (cs : List Concept)
    (i : Nat) (f : Frame) :
    ∀ d ∈ frameDiags st iw cs i f,
      d ∈ validate_frame_source_present f ("frames[" ++ toString i ++ "]") ∨
        d ∈ validate_frame_source_exclusivity f ("frames[" ++ toString i ++ "]") ∨
        d.rule_id ∈
          ["FRAME-001", "FRAME-002", "FRAME-003", "FRAME-006", "HOOK-001", "HOOK-002",
            "HOOK-004", "HOOK-005", "HOOK-006", "HOOK-007", "HOOK-W01", "FRAME-W03"] := by
  intro d hd
  unfold frameDiags at hd
  simp only [List.mem_append] at hd
  rcases hd with ((((((((hd | hd) | hd) | hd) | hd) | hd) | hd) | hd) | hd)
  · refine Or.inr (Or.inr ?_)
    rw [ids_frame_name f _ d hd]
    decide
  · refine Or.inr (Or.inr ?_)
    rw [ids_frame_has_hooks f _ d hd]
    decide
  · refine Or.inr (Or.inr ?_)
    rw [ids_frame_primary f _ d hd]
    decide
  · exact Or.inl hd
  · exact Or.inr (Or.inl hd)
  · refine Or.inr (Or.inr ?_)
    rw [ids_frame_source_nonempty f _ d hd]
    decide
  · refine Or.inr (Or.inr ?_)
    rw [ids_hookUniqAux f.name _ f.hooks [] 0 d hd]
    decide
  · refine Or.inr (Or.inr ?_)
    have hsm := hooksDiags_cases st iw cs _ f.hooks 0 d hd
    simp only [List.mem_cons, List.not_mem_nil, or_false] at hsm
    rcases hsm with h | h | h | h | h | h <;> rw [h] <;> decide
  · split at hd
    · refine Or.inr (Or.inr ?_)
      rw [ids_too_many_hooks f _ d hd]
      decide
    · exact absurd hd (List.not_mem_nil d)

theorem framesDiags_cases (st : Settings) (iw : Bool) (cs : List Concept)
    (fs : List Frame) :
    ∀ (i : Nat) (d : Diagnostic), d ∈ framesDiags st iw cs i fs →
      ∃ (j : Nat) (f : Frame), f ∈ fs ∧
        (d ∈ validate_frame_source_present f ("frames[" ++ toString j ++ "]") ∨
          d ∈ validate_frame_source_exclusivity f ("frames[" ++ toString j ++ "]") ∨
          d.rule_id ∈
            ["FRAME-001", "FRAME-002", "FRAME-003", "FRAME-006", "HOOK-001", "HOOK-002",
              "HOOK-004", "HOOK-005", "HOOK-006", "HOOK-007", "HOOK-W01", "FRAME-W03"]) := by
  induction fs with
  | nil =>
    intro i d hd
    exact absurd hd (List.not_mem_nil d)
  | cons f fs ih =>
    intro i d hd
    unfold framesDiags at hd
    rw [List.mem_append] at hd
    rcases hd with hd | hd
    · exact ⟨i, f, List.mem_cons_self f fs, frameDiags_cases st iw cs i f d hd⟩
    · obtain ⟨j, f2, hf2, hrest⟩ := ih (i + 1) d hd
      exact ⟨j, f2, List.mem_cons_of_mem f hf2, hrest⟩

theorem conceptsDiags_cases (m : Manifest) (cs : List Concept) :
    ∀ (i : Nat) (d : Diagnostic), d ∈ conceptsDiags m i cs →
      d.rule_id = "CONCEPT-001" := by
  induction cs with
  | nil =>
    intro i d hd
    exact absurd hd (List.not_mem_nil d)
  | cons c cs ih =>
    intro i d hd
    unfold conceptsDiags at hd
    simp only [List.mem_append] at hd
    rcases hd with (hd | hd) | hd
    · exact ids_concept_in_frames c _ m d hd
    · exact absurd hd (List.not_mem_nil d)
    · exact ih (i + 1) d hd

theorem rawDiags_cases (m : Manifest) (iw : Bool) (raw : Option (List String)) :
    ∀ d ∈ rawDiags m iw raw,
      (∃ (j : Nat) (f : Frame), f ∈ m.frames ∧
        (d ∈ validate_frame_source_present f ("frames[" ++ toString j ++ "]") ∨
          d ∈ validate_frame_source_exclusivity f ("frames[" ++ toString j ++ "]"))) ∨
      d.rule_id ∈
        ["MANIFEST-001", "MANIFEST-002", "FRAME-001", "FRAME-002", "FRAME-003",
          "FRAME-006", "HOOK-001", "HOOK-002", "HOOK-004", "HOOK-005", "HOOK-006",
          "HOOK-007", "HOOK-W01", "FRAME-W03", "CONCEPT-001", "CONCEPT-003",
          "CONCEPT-W01", "FRAME-W02", "MANIFEST-W01", "MANIFEST-W02"] := by
  intro d hd
  unfold rawDiags at hd
  simp only [List.mem_append] at hd
  rcases hd with ((((hd | hd) | hd) | hd) | hd) | hd
  · right
    rw [ids_manifest_version m d hd]
    decide
  · right
    rw [ids_schema_version m d hd]
    decide
  · obtain ⟨j, f, hf, hcase⟩ := framesDiags_cases m.settings iw m.concepts m.frames 0 d hd
    rcases hcase with hc | hc | hc
    · exact Or.inl ⟨j, f, hf, Or.inl hc⟩
    · exact Or.inl ⟨j, f, hf, Or.inr hc⟩
    · right
      simp only [List.mem_cons, List.not_mem_nil, or_false] at hc
      rcases hc with h | h | h | h | h | h | h | h | h | h | h | h <;> rw [h] <;> decide
  · right
    rw [ids_conceptDupAux m.concepts [] 0 d hd]
    decide
  · right
    rw [conceptsDiags_cases m m.concepts 0 d hd]
    decide
  · split at hd
    · simp only [List.mem_append] at hd
      rcases hd with ((hd | hd) | hd) | hd
      · right
        rw [ids_concept_count m d hd]
        decide
      · right
        rw [ids_duplicate_source m d hd]
        decide
      · right
        rw [ids_too_many_frames m d hd]
        decide
      · split at hd
        · right
          rw [ids_unknown_fields _ d hd]
          decide
        · exact absurd hd (List.not_mem_nil d)
    · exact absurd hd (List.not_mem_nil d)

/-- C9: `validate_manifest` never returns a FRAME-W01 diagnostic, for
any manifest and any `include_warnings`/`raw_data` arguments: the
FRAME-W01 rule (`warn_no_primary_only_foreign`) is not invoked by the
orchestrator, so the no-primary-hook condition surfaces only as
FRAME-003. -/
theorem validate_manifest_no_frame_w01 (m : Manifest) (iw : Bool)
    (raw : Option (List String)) :
    ∀ d ∈ validate_manifest m iw raw, d.rule_id ≠ "FRAME-W01" := by
  intro d hd
  rw [mem_validate_manifest_iff] at hd
  rcases rawDiags_cases m iw raw d hd with ⟨j, f, _, hc | hc⟩ | hc
  · rw [ids_frame_source_present f _ d hc]
    decide
  · rw [ids_frame_source_exclusivity f _ d hc]
    decide
  · intro hcontra
    rw [hcontra] at hc
    exact absurd hc (by decide)

/-- Witness for C9 at a concrete manifest whose output contains a
FRAME-001 diagnostic. -/
theorem validate_manifest_no_frame_w01_witness :
    (Diagnostic.mk "FRAME-001" Severity.ERROR "Frame frame.empty has no hooks"
      "frames[0].hooks" "Add at least one hook to the frame").rule_id ≠ "FRAME-W01" :=
  validate_manifest_no_frame_w01 manifestEx4 true none
    (Diagnostic.mk "FRAME-001" Severity.ERROR "Frame frame.empty has no hooks"
      "frames[0].hooks" "Add at least one hook to the frame") (by decide)

theorem source_present_nil {f : Frame} {p : String} {s : Source}
    (hs : f.source = some s) : validate_frame_source_present f p = [] := by
  unfold validate_frame_source_present
  rw [hs]

theorem source_exclusivity_nil {f : Frame} {p : String} {s : Source}
    (hs : f.source = some s) (hex : Source.exclusive s) :
    validate_frame_source_exclusivity f p = [] := by
  unfold validate_frame_source_exclusivity
  rw [hs]
  rcases hex with ⟨hr, hp⟩ | ⟨hr, hp⟩
  · simp [hr, hp]
  · simp [hr, hp]

/-- C10: when every frame's `source` is a non-null `Source` satisfying
the construction invariant (exactly one of relation/path non-null),
`validate_manifest` never returns FRAME-004 or FRAME-005: those error
branches are unreachable under the typed model's invariant. -/
theorem validate_manifest_no_source_errors (m : Manifest) (iw : Bool)
    (raw : Option (List String))
    (hsrc : ∀ f ∈ m.frames, ∃ s, f.source = some s ∧ Source.exclusive s) :
    ∀ d ∈ validate_manifest m iw raw,
      d.rule_id ≠ "FRAME-004" ∧ d.rule_id ≠ "FRAME-005" := by
  intro d hd
  rw [mem_validate_manifest_iff] at hd
  rcases rawDiags_cases m iw raw d hd with ⟨j, f, hf, hc | hc⟩ | hc
  · obtain ⟨s, hs, _⟩ := hsrc f hf
    rw [source_present_nil hs] at hc
    exact absurd hc (List.not_mem_nil d)
  · obtain ⟨s, hs, hex⟩ := hsrc f hf
    rw [source_exclusivity_nil hs hex] at hc
    exact absurd hc (List.not_mem_nil d)
  · constructor <;>
      · intro hcontra
        rw [hcontra] at hc
        exact absurd hc (by decide)

/-- Witness for C10 at a concrete manifest whose one frame has a
relational source. -/
theorem validate_manifest_no_source_errors_witness :
    (Diagnostic.mk "FRAME-001" Severity.ERROR "Frame frame.empty has no hooks"
        "frames[0].hooks" "Add at least one hook to the frame").rule_id ≠ "FRAME-004" ∧
      (Diagnostic.mk "FRAME-001" Severity.ERROR "Frame frame.empty has no hooks"
        "frames[0].hooks" "Add at least one hook to the frame").rule_id ≠ "FRAME-005" :=
  validate_manifest_no_source_errors manifestEx4 true none
    (fun f hf => by
      rw [show manifestEx4.frames = [frameEmptyHooks] from rfl, List.mem_singleton] at hf
      subst hf
      exact ⟨srcEx, rfl, Or.inl ⟨rfl, rfl⟩⟩)
    (Diagnostic.mk "FRAME-001" Severity.ERROR "Frame frame.empty has no hooks"
      "frames[0].hooks" "Add at least one hook to the frame") (by decide)

end Dot
